import Mathlib

/-!
Verification of the payment-and-installment lifecycle engine of this
repository (an Express/Mongoose backend).  The definitions below are a
shallow embedding of the JavaScript source:

* `src/unnamed/part_000` — the Mongoose models (`Payment` with its
  installment subdocuments and the `pre('save')` hook, `User` with
  `installmentSettings`, `Service`);
* `src/src/controllers/paymentController.js` — `createPayment`,
  `choosePaymentType`, `updatePaymentStatus`;
* `src/unnamed/part_010` — the admin controller
  (`toggleSuspicionStatus`, `setInstallmentSplits`,
  `checkOverduePayments`).

Conventions of the embedding: JavaScript numbers carrying money are
modelled as exact rationals (`ℚ`); timestamps (`Date`) are integers in
milliseconds since the epoch; Mongo object ids are `Nat`; nullable
fields are `Option`; an HTTP error response is an `Except.error`.
Saving a document runs the schema's `pre('save')` hook, so every
function that ends in `document.save()` returns the hook's output.
-/

/-- Status of one installment subdocument
(`src/unnamed/part_000`, `installmentSchema.status`, lines 100-112).
`partPaid` does not occur here; the source enum also has `overdue` and
`cancelled`, which no code path assigns. -/
inductive InstStatus
| pending
| submitted
| approved
| paid
| rejected
| overdue
| cancelled
deriving DecidableEq

/-- Ledger-level payment mode (`paymentSchema.paymentType`). -/
inductive PaymentType
| full
| installment
deriving DecidableEq

/-- Ledger-level payment status (`paymentSchema.paymentStatus`,
enum `['pending', 'approved', 'rejected', 'partial']`); the source's
`'partial'` is rendered `partPaid` because its source spelling is a
reserved word here. -/
inductive PaymentStatus
| pending
| approved
| rejected
| partPaid
deriving DecidableEq

/-- `paymentSchema.serviceStatus`
(enum `['pending', 'active', 'completed', 'expired', 'suspended']`). -/
inductive ServiceStatus
| pending
| active
| completed
| expired
| suspended
deriving DecidableEq

/-- One installment subdocument (`installmentSchema`,
`src/unnamed/part_000` lines 80-126). -/
structure Installment where
  installmentNumber : Nat
  amount : ℚ
  percentage : ℚ
  dueDate : Int
  paidDate : Option Int := none
  status : InstStatus := InstStatus.pending
  transactionId : Option String := none
  submittedAt : Option Int := none
  approvedAt : Option Int := none
  approvedBy : Option Nat := none
  rejectedAt : Option Int := none
  rejectedBy : Option Nat := none
  notes : Option String := none
deriving DecidableEq

/-- The payment document = the spec's Ledger (`paymentSchema`,
`src/unnamed/part_000` lines 128-221).  `amount` is the total price
copied from the service at creation. -/
structure Payment where
  id : Nat
  userId : Nat
  serviceId : Nat
  transactionId : String
  amount : ℚ
  paymentType : PaymentType := PaymentType.full
  installments : List Installment := []
  amountPaid : ℚ := 0
  amountDue : ℚ := 0
  paymentStatus : PaymentStatus := PaymentStatus.pending
  serviceStatus : ServiceStatus := ServiceStatus.pending
  startDate : Option Int := none
  endDate : Option Int := none
  notes : Option String := none
  adminNotes : Option String := none
  isServiceCompleted : Bool := false
  markedSuspicious : Bool := false
deriving DecidableEq

/-- One entry of `userSchema.installmentSettings.splits`
(`src/unnamed/part_000` lines 393-404). -/
structure Split where
  percentage : ℚ
  dueDays : Int
deriving DecidableEq

/-- `userSchema.installmentSettings` (`src/unnamed/part_000`
lines 388-416). -/
structure InstallmentSettings where
  enabled : Bool := false
  splits : List Split := []
  defaultSplits : List ℚ := [30, 70]
  updatedBy : Option Nat := none
  updatedAt : Option Int := none
deriving DecidableEq

/-- The user document = the spec's Account; only the fields the payment
engine reads (`src/unnamed/part_000` lines 339-450). -/
structure User where
  id : Nat
  isSuspicious : Bool := false
  installmentSettings : InstallmentSettings := {}
deriving DecidableEq

/-- The service document = the spec's Purchase; only the fields the
payment engine reads (`src/unnamed/part_000`, `serviceSchema`). -/
structure Service where
  id : Nat
  price : ℚ
  isActive : Bool := true
  duration : String := "30 days"
deriving DecidableEq

/-- `installments.reduce((sum, inst) => sum + inst.amount, 0)`. -/
def instTotal (l : List Installment) : ℚ :=
  (l.map Installment.amount).sum

/-- `installments.filter(inst => inst.status === 'paid')`. -/
def paidInstallments (l : List Installment) : List Installment :=
  l.filter (fun i => decide (i.status = InstStatus.paid))

/-- The first block of the `paymentSchema.pre('save')` hook
(`src/unnamed/part_000` lines 228-254): recompute `amountPaid`,
`amountDue` and `paymentStatus`. -/
def preSaveAmounts (p : Payment) : Payment :=
  if p.paymentType = PaymentType.installment ∧ 0 < p.installments.length then
    { p with amountPaid := instTotal (paidInstallments p.installments)
             amountDue := instTotal p.installments
               - instTotal (paidInstallments p.installments)
             paymentStatus :=
               if instTotal (paidInstallments p.installments) = 0 then
                 PaymentStatus.pending
               else if instTotal (paidInstallments p.installments)
                   = instTotal p.installments then PaymentStatus.approved
               else PaymentStatus.partPaid }
  else
    { p with amountPaid := if p.paymentStatus = PaymentStatus.approved then p.amount else 0
             amountDue := p.amount
               - if p.paymentStatus = PaymentStatus.approved then p.amount else 0 }

/-- The second block of the hook (lines 256-258): the completion flag
forces `serviceStatus` to `completed`. -/
def preSaveCompletion (p : Payment) : Payment :=
  if p.isServiceCompleted then { p with serviceStatus := ServiceStatus.completed }
  else p

/-- The whole `paymentSchema.pre('save')` hook (`src/unnamed/part_000`
lines 227-259).  Every model function that saves a payment pipes it
through this. -/
def preSave (p : Payment) : Payment :=
  preSaveCompletion (preSaveAmounts p)

/-- `userSchema.methods.canUseInstallment` (`src/unnamed/part_000`
lines 488-490): reads only `installmentSettings.enabled`; it does not
consult `isSuspicious`. -/
def canUseInstallment (u : User) : Bool :=
  u.installmentSettings.enabled

/-- `paymentSchema.methods.checkOverdueInstallments`
(`src/unnamed/part_000` lines 279-286). -/
def checkOverdueInstallments (now : Int) (p : Payment) : Bool :=
  if p.paymentType ≠ PaymentType.installment then false
  else p.installments.any (fun i => decide (i.status = InstStatus.pending ∧ i.dueDate < now))

/-- JavaScript `String.prototype.trim`, written on the character list so
that it evaluates structurally. -/
def jsTrim (s : String) : String :=
  String.mk (((s.data.dropWhile Char.isWhitespace).reverse.dropWhile
    Char.isWhitespace).reverse)

/-- Whether the second list starts with the first. -/
def leadEq : List Char → List Char → Bool
  | [], _ => true
  | _ :: _, [] => false
  | a :: as, b :: bs => a == b && leadEq as bs

/-- Whether the pattern occurs somewhere in the list. -/
def hasSub (pat : List Char) : List Char → Bool
  | [] => pat.isEmpty
  | b :: bs => leadEq pat (b :: bs) || hasSub pat bs

/-- JavaScript `s.includes(pat)`. -/
def strContains (s pat : String) : Bool :=
  hasSub pat.data s.data

/-- Decimal value of a digit list. -/
def digitsToNat (cs : List Char) : Nat :=
  cs.foldl (fun a c => a * 10 + (c.toNat - 48)) 0

/-- JavaScript `parseInt(s)`: skip leading whitespace, optional sign,
then leading digits; `none` models `NaN`. -/
def jsParseInt (s : String) : Option Int :=
  let core : List Char → Option Int := fun ds =>
    let d := ds.takeWhile Char.isDigit
    if d.isEmpty then none else some ((digitsToNat d : Nat) : Int)
  match s.data.dropWhile Char.isWhitespace with
  | [] => none
  | c :: rest =>
    if c = '-' then (core rest).map (fun n => -n)
    else if c = '+' then core rest
    else core (c :: rest)

/-- JavaScript `parseInt(s) || d`: both `NaN` and `0` fall to the
default. -/
def parseIntOr (s : String) (dflt : Int) : Int :=
  match jsParseInt s with
  | none => dflt
  | some n => if n = 0 then dflt else n

/-- Milliseconds per day, the source's `24 * 60 * 60 * 1000`. -/
def msPerDay : Int := 86400000

/-- The duration-to-end-date computation of `updatePaymentStatus`
(`src/src/controllers/paymentController.js` lines 613-626 and 651-665):
a duration containing "month" is months, containing "year" is years,
otherwise a day count.  The JS `Date.setMonth`/`setFullYear` calendar
arithmetic is the external date library; months and years are rendered
as 30 and 365 days.  No claim below depends on this value. -/
def computeEndDate (duration : String) (startMs : Int) : Int :=
  if strContains duration "month" then startMs + parseIntOr duration 1 * 30 * msPerDay
  else if strContains duration "year" then startMs + parseIntOr duration 1 * 365 * msPerDay
  else startMs + parseIntOr duration 30 * msPerDay

/-- `toggleSuspicionStatus` (`src/unnamed/part_010` lines 323-347), the
admin `setSuspicious` mutator: marking suspicious also disables
installments; clearing suspicion leaves `enabled` untouched. -/
def toggleSuspicionStatus (adminId : Nat) (now : Int) (u : User)
    (isSuspicious : Bool) : User :=
  let u1 := { u with isSuspicious := isSuspicious }
  if isSuspicious then
    { u1 with installmentSettings :=
        { u1.installmentSettings with
            enabled := false
            updatedBy := some adminId
            updatedAt := some now } }
  else u1

/-- `paymentSchema.statics.updateUserSuspicion` (`src/unnamed/part_000`
lines 265-273).  It sets `installmentSettings.enabled` to the negation
of the flag — clearing suspicion through it would re-enable — but no
route or controller in the repository ever calls it. -/
def updateUserSuspicion (u : User) (isSuspicious : Bool) : User :=
  { u with isSuspicious := isSuspicious,
           installmentSettings :=
             { u.installmentSettings with enabled := !isSuspicious } }

/-- Errors of `setInstallmentSplits`: the two explicit 400 responses,
and the Mongoose schema rejection (percentage outside the schema's
`min: 1, max: 100`) surfacing when `user.save()` validates. -/
inductive SplitsError
| tooFewSplits
| sumNot100
| schemaValidation
deriving DecidableEq

/-- The split-object construction of `setInstallmentSplits`
(`splits.map((percentage, index) => ...)`, `src/unnamed/part_010`
lines 486-489), with the running index made explicit. -/
def mkSplitObjects : Nat → List ℚ → List Split
  | _, [] => []
  | idx, pct :: rest =>
    { percentage := pct, dueDays := if idx = 0 then 0 else (idx : Int) * 30 }
      :: mkSplitObjects (idx + 1) rest

/-- `setInstallmentSplits` (`src/unnamed/part_010` lines 455-529):
rejects fewer than two splits, then a sum other than 100; the final
`user.save()` runs schema validation, which rejects any percentage
outside `[1, 100]` (`src/unnamed/part_000` lines 393-399). -/
def setInstallmentSplits (adminId : Nat) (now : Int) (u : User)
    (splits : List ℚ) : Except SplitsError User :=
  if splits.length < 2 then Except.error SplitsError.tooFewSplits
  else if splits.sum ≠ 100 then Except.error SplitsError.sumNot100
  else
    let objs := mkSplitObjects 0 splits
    if objs.all (fun s => decide (1 ≤ s.percentage ∧ s.percentage ≤ 100)) then
      Except.ok { u with installmentSettings :=
        { u.installmentSettings with
            splits := objs
            defaultSplits := splits
            updatedBy := some adminId
            updatedAt := some now } }
    else Except.error SplitsError.schemaValidation

/-- The hard-coded fallback template
`[{ percentage: 30, dueDays: 0 }, { percentage: 70, dueDays: 30 }]`. -/
def defaultSplitTemplate : List Split := [⟨30, 0⟩, ⟨70, 30⟩]

/-- The split template `createPayment` and `choosePaymentType` both use:
the user's stored splits when non-empty, else the fallback
(`src/src/controllers/paymentController.js` lines 112-114, 243-245). -/
def effectiveSplits (u : User) : List Split :=
  if 0 < u.installmentSettings.splits.length then u.installmentSettings.splits
  else defaultSplitTemplate

/-- The installment construction of `createPayment`
(`splits.map((split, index) => ...)`, lines 117-124): running index
explicit, amounts unrounded, only index 0 carries the transaction
reference. -/
def buildInsts (price : ℚ) (now : Int) (ref : String) :
    Nat → List Split → List Installment
  | _, [] => []
  | idx, s :: rest =>
    { installmentNumber := idx + 1
      amount := price * s.percentage / 100
      percentage := s.percentage
      dueDate := now + s.dueDays * msPerDay
      status := InstStatus.pending
      transactionId := if idx = 0 then some ref else none }
      :: buildInsts price now ref (idx + 1) rest

/-- The error responses of `createPayment` that the embedding reaches;
entity lookups are inputs here, so the 404 branches need no model. -/
inductive CreateError
| missingFields
| serviceNotActive
| duplicateTransaction
| installmentsNotEnabled
| accountSuspicious
deriving DecidableEq

/-- The `paymentData` object `createPayment` assembles before the
branch on the payment type (lines 99-108). -/
def createBase (u : User) (svc : Service) (tx : String) (ptype : PaymentType)
    (newId : Nat) : Payment :=
  { id := newId, userId := u.id, serviceId := svc.id, transactionId := tx
    amount := svc.price
    paymentType := ptype
    paymentStatus := if ptype = PaymentType.full then PaymentStatus.pending
                     else PaymentStatus.partPaid
    serviceStatus := ServiceStatus.pending }

/-- The installment branch of `createPayment` (lines 111-132): attach
the built installments, flip the first one to `submitted`, and set
`amountPaid = 0`, `amountDue = price`.  When the built list is empty
nothing further is set (the schema defaults stand). -/
def installmentData (base : Payment) (price : ℚ) (now : Int) (tx : String)
    (splits : List Split) : Payment :=
  match buildInsts price now tx 0 splits with
  | [] => base
  | h :: t =>
    { base with
        installments :=
          { h with status := InstStatus.submitted, submittedAt := some now } :: t
        amountPaid := 0
        amountDue := price }

/-- `createPayment` (`src/src/controllers/paymentController.js` lines
13-195).  `dupRef` stands for the `Payment.findOne({transactionId})`
lookup hitting an existing document.  After the guards it assembles the
payment data and `Payment.create` runs the `pre('save')` hook. -/
def createPayment (now : Int) (u : User) (svc : Service) (dupRef : Bool)
    (txIn : String) (ptype : PaymentType) (newId : Nat) :
    Except CreateError Payment :=
  if txIn = "" then Except.error CreateError.missingFields
  else if !svc.isActive then Except.error CreateError.serviceNotActive
  else if dupRef then Except.error CreateError.duplicateTransaction
  else if decide (ptype = PaymentType.installment) && !u.installmentSettings.enabled then
    Except.error CreateError.installmentsNotEnabled
  else if decide (ptype = PaymentType.installment) && u.isSuspicious then
    Except.error CreateError.accountSuspicious
  else
    let base := createBase u svc (jsTrim txIn) ptype newId
    let withData :=
      if ptype = PaymentType.installment then
        installmentData base svc.price now (jsTrim txIn) (effectiveSplits u)
      else { base with amountPaid := 0, amountDue := svc.price }
    Except.ok (preSave withData)

/-- One row of the `installmentDetails` array `choosePaymentType`
returns (lines 247-252): due days, not an absolute due date. -/
structure InstDetail where
  installmentNumber : Nat
  amount : ℚ
  percentage : ℚ
  dueDays : Int
deriving DecidableEq

/-- The part of `choosePaymentType`'s response the claims read. -/
structure ChooseData where
  canUseInstallment : Bool
  installmentDetails : Option (List InstDetail)
deriving DecidableEq

/-- The one error response of `choosePaymentType` the embedding
reaches. -/
inductive ChooseError
| notEnabledForAccount
deriving DecidableEq

/-- The details construction of `choosePaymentType`
(`splits.map((split, index) => ...)`, lines 247-252). -/
def buildDetails (price : ℚ) : Nat → List Split → List InstDetail
  | _, [] => []
  | idx, s :: rest =>
    { installmentNumber := idx + 1
      amount := price * s.percentage / 100
      percentage := s.percentage
      dueDays := s.dueDays } :: buildDetails price (idx + 1) rest

/-- `choosePaymentType` (`src/src/controllers/paymentController.js`
lines 200-277): for installment requests it consults only
`installmentSettings.enabled` — never `isSuspicious` — and returns the
full schedule. -/
def choosePaymentType (u : User) (svc : Service) (ptype : PaymentType) :
    Except ChooseError ChooseData :=
  if ptype = PaymentType.installment then
    if !u.installmentSettings.enabled then Except.error ChooseError.notEnabledForAccount
    else Except.ok
      { canUseInstallment := u.installmentSettings.enabled
        installmentDetails := some (buildDetails svc.price 0 (effectiveSplits u)) }
  else Except.ok { canUseInstallment := false, installmentDetails := none }

/-- The admin route's validated `status` body field
(`['approved', 'rejected', 'pending']`). -/
inductive ReqStatus
| approved
| rejected
| pending
deriving DecidableEq

/-- The ledger-level status the request text stands for. -/
def ReqStatus.toPaymentStatus : ReqStatus → PaymentStatus
  | ReqStatus.approved => PaymentStatus.approved
  | ReqStatus.rejected => PaymentStatus.rejected
  | ReqStatus.pending => PaymentStatus.pending

/-- Replace the first installment with the given number — JavaScript
`find` yields a live reference into the array, so mutating it rewrites
exactly the first match. -/
def updateFirstInst : List Installment → Nat → (Installment → Installment) →
    List Installment
  | [], _, _ => []
  | i :: rest, n, f =>
    if i.installmentNumber = n then f i :: rest
    else i :: updateFirstInst rest n f

/-- The trailing `if (notes) installment.notes = notes` of the
installment branch (lines 646-648). -/
def applyInstNotes (p : Payment) (n : Nat) (notes : Option String) : Payment :=
  match notes with
  | some txt =>
    { p with installments :=
        updateFirstInst p.installments n (fun i => { i with notes := some txt }) }
  | none => p

/-- The one error response of `updatePaymentStatus` the embedding
reaches (`Installment not found`, line 585-590). -/
inductive UpdateError
| installmentNotFound
deriving DecidableEq

/-- `updatePaymentStatus` (`src/src/controllers/paymentController.js`
lines 563-715), the admin decide operation.  Installment branch when
`installmentNumber` is supplied: no guard on the installment's current
status; approve flips it to `paid` and recomputes running totals,
reject flips it to `rejected` and clears its transaction reference; a
request for `pending` touches only the notes.  Otherwise the full
branch assigns `paymentStatus` directly from the request.  The final
`payment.save()` runs the `pre('save')` hook. -/
def updatePaymentStatus (now : Int) (adminId : Nat) (duration : String)
    (p : Payment) (req : ReqStatus) (notes : Option String)
    (instNo : Option Nat) : Except UpdateError Payment :=
  match p.paymentType, instNo with
  | PaymentType.installment, some n =>
    match p.installments.find? (fun i => decide (i.installmentNumber = n)) with
    | none => Except.error UpdateError.installmentNotFound
    | some inst =>
      if req = ReqStatus.approved then
        let insts1 := updateFirstInst p.installments n (fun i =>
          { i with status := InstStatus.paid, paidDate := some now,
                   approvedBy := some adminId, approvedAt := some now })
        let newPaid := p.amountPaid + inst.amount
        let p1 := { p with installments := insts1, amountPaid := newPaid,
                           amountDue := p.amount - newPaid }
        let allPaid := p1.installments.all (fun i => decide (i.status = InstStatus.paid))
        let p2 :=
          if allPaid then
            { p1 with paymentStatus := PaymentStatus.approved
                      serviceStatus := ServiceStatus.active
                      startDate := some now
                      endDate := some (computeEndDate duration now) }
          else { p1 with paymentStatus := PaymentStatus.partPaid }
        let p3 :=
          if n = 1 ∧ p2.startDate = none then
            { p2 with startDate := some now, serviceStatus := ServiceStatus.active }
          else p2
        Except.ok (preSave (applyInstNotes p3 n notes))
      else if req = ReqStatus.rejected then
        let insts1 := updateFirstInst p.installments n (fun i =>
          { i with status := InstStatus.rejected, rejectedAt := some now,
                   rejectedBy := some adminId, transactionId := none })
        Except.ok (preSave (applyInstNotes { p with installments := insts1 } n notes))
      else
        Except.ok (preSave (applyInstNotes p n notes))
  | _, _ =>
    let p1 :=
      if req = ReqStatus.approved ∧ p.startDate = none then
        { p with startDate := some now
                 endDate := some (computeEndDate duration now)
                 serviceStatus := ServiceStatus.active }
      else p
    let p2 := if req = ReqStatus.rejected then { p1 with serviceStatus := ServiceStatus.expired }
              else p1
    let p3 := { p2 with paymentStatus := req.toPaymentStatus }
    let p4 := match notes with
      | some txt => { p3 with adminNotes := some txt }
      | none => p3
    Except.ok (preSave p4)

/-- One entry of the `suspiciousUsers` array the sweep returns. -/
structure SuspEntry where
  userId : Nat
  paymentId : Nat
deriving DecidableEq

/-- The stored users and payments the sweep reads and writes. -/
structure AdminState where
  users : List User
  payments : List Payment
deriving DecidableEq

/-- Look a user up by id, as `populate('userId')` does; `none` models a
dangling reference populating to `null`. -/
def findUser (users : List User) (uid : Nat) : Option User :=
  users.find? (fun u => decide (u.id = uid))

/-- The sweep's user mutation: `isSuspicious = true` and
`installmentSettings.enabled = false` (part_010 lines 765-767). -/
def flagUser (u : User) : User :=
  { u with isSuspicious := true
           installmentSettings := { u.installmentSettings with enabled := false } }

/-- Persist the flagged user: the store is keyed by id. -/
def storeFlagUser (users : List User) (uid : Nat) : List User :=
  users.map (fun u => if u.id = uid then flagUser u else u)

/-- Persist a saved payment document over the stored one with its id. -/
def storePayment (payments : List Payment) (q : Payment) : List Payment :=
  payments.map (fun r => if r.id = q.id then q else r)

/-- The sweep's Mongo query (part_010 lines 753-758):
`paymentType: 'installment'`, `'installments.status': 'pending'`,
`'installments.dueDate': {$lt: now}`, `markedSuspicious: false`.  The
two array conditions are separate (no `$elemMatch`), so they may be
witnessed by different installments. -/
def sweepMatch (now : Int) (p : Payment) : Bool :=
  decide (p.paymentType = PaymentType.installment) &&
  p.installments.any (fun i => decide (i.status = InstStatus.pending)) &&
  p.installments.any (fun i => decide (i.dueDate < now)) &&
  !p.markedSuspicious

/-- One processed payment of the sweep loop (part_010 lines 763-771):
flag and persist the owner, persist the payment with
`markedSuspicious = true` (its save runs the `pre('save')` hook). -/
def sweepStepState (st : AdminState) (p : Payment) : AdminState :=
  { users := storeFlagUser st.users p.userId
    payments := storePayment st.payments (preSave { p with markedSuspicious := true }) }

/-- The `for (const payment of payments)` loop of the sweep (part_010
lines 762-780), over the snapshot list the query returned: when the
payment's owner exists and is not (by now) suspicious, apply
`sweepStepState` and push a result entry. -/
def sweepLoop (now : Int) : List Payment → AdminState → AdminState × List SuspEntry
  | [], st => (st, [])
  | p :: rest, st =>
    match findUser st.users p.userId with
    | some u =>
      if u.isSuspicious then sweepLoop now rest st
      else
        let r := sweepLoop now rest (sweepStepState st p)
        (r.1, { userId := p.userId, paymentId := p.id } :: r.2)
    | none => sweepLoop now rest st

/-- `checkOverduePayments` (`src/unnamed/part_010` lines 748-794), the
overdue-and-trust sweep: query once, then process each matched payment. -/
def checkOverduePayments (now : Int) (st : AdminState) :
    AdminState × List SuspEntry :=
  sweepLoop now (st.payments.filter (sweepMatch now)) st

/-- Equality of controller results is decidable, so concrete runs can
be checked by evaluation. -/
instance {ε α : Type} [DecidableEq ε] [DecidableEq α] : DecidableEq (Except ε α) := fun a b =>
  match a, b with
  | Except.error e, Except.error f =>
    if h : e = f then isTrue (by rw [h]) else isFalse (fun hh => by cases hh; exact h rfl)
  | Except.ok x, Except.ok y =>
    if h : x = y then isTrue (by rw [h]) else isFalse (fun hh => by cases hh; exact h rfl)
  | Except.error _, Except.ok _ => isFalse (fun hh => by cases hh)
  | Except.ok _, Except.error _ => isFalse (fun hh => by cases hh)

/-- The spec's sweep predicate for a single obligation, restricted to
what the code actually tests: status `pending` and a lapsed due date on
the same obligation. -/
def OverdueOb (now : Int) (i : Installment) : Prop :=
  i.status = InstStatus.pending ∧ i.dueDate < now

instance (now : Int) (i : Installment) : Decidable (OverdueOb now i) := by
  unfold OverdueOb; infer_instance

/-- The spec's sweep predicate for a single obligation as claim C8
words it: status `pending`, or `submitted` with no decision yet, and a
lapsed due date. -/
def SpecOverdueOb (now : Int) (i : Installment) : Prop :=
  (i.status = InstStatus.pending ∨
    (i.status = InstStatus.submitted ∧ i.approvedAt = none ∧ i.rejectedAt = none)) ∧
  i.dueDate < now

instance (now : Int) (i : Installment) : Decidable (SpecOverdueOb now i) := by
  unfold SpecOverdueOb; infer_instance

/-- The obligation list claim C4 (as amended: unrounded amounts)
prescribes for a new installment ledger: the i-th split becomes the
obligation with ordinal i+1, amount `price * percentage / 100`,
due date `now + offset`, the first one `submitted` carrying the
initiating reference, the rest `pending`. -/
def specPlanAux (price : ℚ) (now : Int) (ref : String) :
    Nat → List Split → List Installment
  | _, [] => []
  | k, s :: rest =>
    { installmentNumber := k + 1
      amount := price * s.percentage / 100
      percentage := s.percentage
      dueDate := now + s.dueDays * msPerDay
      status := if k = 0 then InstStatus.submitted else InstStatus.pending
      transactionId := if k = 0 then some ref else none
      submittedAt := if k = 0 then some now else none }
      :: specPlanAux price now ref (k + 1) rest

/-- The prescribed plan, indices started at 0. -/
def specPlan (price : ℚ) (now : Int) (ref : String) (splits : List Split) :
    List Installment :=
  specPlanAux price now ref 0 splits

/-- A placeholder payment for extracting `Except.ok` payloads of
concrete computations. -/
def dummyPayment : Payment :=
  { id := 0, userId := 0, serviceId := 0, transactionId := "", amount := 0 }

/-- A full-mode ledger already approved and activated (for C9). -/
def pC9 : Payment :=
  { id := 1, userId := 2, serviceId := 3, transactionId := "tx"
    amount := 100, paymentType := PaymentType.full
    amountPaid := 100, amountDue := 0
    paymentStatus := PaymentStatus.approved
    serviceStatus := ServiceStatus.active
    startDate := some 5, endDate := some 10 }

/-- The ledger after the admin requests `pending` on `pC9`. -/
def qC9 : Payment :=
  (updatePaymentStatus 50 9 "30 days" pC9 ReqStatus.pending none none).toOption.getD dummyPayment

/-- An installment ledger whose obligations are all still `pending`
(none `submitted`), for C2. -/
def pC2 : Payment :=
  { id := 4, userId := 2, serviceId := 3, transactionId := "t2"
    amount := 100, paymentType := PaymentType.installment
    amountDue := 100
    installments :=
      [ { installmentNumber := 1, amount := 30, percentage := 30, dueDate := 0
          status := InstStatus.pending }
      , { installmentNumber := 2, amount := 70, percentage := 70, dueDate := 5
          status := InstStatus.pending } ] }

/-- The ledger after the admin approves obligation 1 of `pC2`. -/
def qC2 : Payment :=
  (updatePaymentStatus 10 9 "30 days" pC2 ReqStatus.approved none (some 1)).toOption.getD dummyPayment

/-- An overdue `submitted` obligation with no decision yet (for C8). -/
def iC8 : Installment :=
  { installmentNumber := 1, amount := 300, percentage := 30, dueDate := -1
    status := InstStatus.submitted, transactionId := some "t8"
    submittedAt := some (-2) }

/-- An installment ledger whose only obligation is `iC8` (for C8). -/
def pC8 : Payment :=
  { id := 5, userId := 2, serviceId := 3, transactionId := "t8"
    amount := 1000, paymentType := PaymentType.installment
    installments := [iC8] }

/-- An installment ledger with a `paid` obligation whose due date has
lapsed and a `pending` obligation that is not yet due (for C8 and C3):
no single obligation is overdue, yet the sweep's query matches. -/
def pC8b : Payment :=
  { id := 6, userId := 2, serviceId := 3, transactionId := "t8b"
    amount := 1000, paymentType := PaymentType.installment
    installments :=
      [ { installmentNumber := 1, amount := 300, percentage := 30, dueDate := -1
          status := InstStatus.paid }
      , { installmentNumber := 2, amount := 700, percentage := 70, dueDate := 99
          status := InstStatus.pending } ] }

/-- An enabled account with no custom template (for C4). -/
def uC4 : User := { id := 8, installmentSettings := { enabled := true } }

/-- An active service priced so the default 30% split is fractional
(for C4). -/
def svcC4 : Service := { id := 9, price := 5 }

/-- The ledger created for `uC4` and `svcC4`. -/
def qC4 : Payment :=
  (createPayment 0 uC4 svcC4 false "t4" PaymentType.installment 11).toOption.getD dummyPayment

/-- An enabled account whose stored split template sums to 60, not 100
(for C6). -/
def uC6 : User :=
  { id := 5, installmentSettings := { enabled := true, splits := [⟨30, 0⟩, ⟨30, 30⟩] } }

/-- An active service (for C6). -/
def svcC6 : Service := { id := 6, price := 10 }

/-- The ledger created for `uC6` despite its invalid template. -/
def qC6 : Payment :=
  (createPayment 0 uC6 svcC6 false "t6" PaymentType.installment 7).toOption.getD dummyPayment

/-- An enabled, suspicious account (for C10's witness). -/
def uC10 : User := { id := 7, isSuspicious := true, installmentSettings := { enabled := true } }

/-- A service for C10's witness. -/
def svcC10 : Service := { id := 3, price := 1000 }

/-- A suspicious account with installments still enabled (for C7's
witness). -/
def uC7 : User := { id := 14, isSuspicious := true, installmentSettings := { enabled := true } }

/-- A service for C7's witness. -/
def svcC7 : Service := { id := 15, price := 200 }

/-- An enabled account (for C1's counterexample). -/
def uC1 : User := { id := 13, installmentSettings := { enabled := true } }

/-- A zero-priced active service — the schema's floor is
`min: [0, ...]`, so a free service is storable (for C1). -/
def svcC1 : Service := { id := 12, price := 0 }

/-- The installment ledger created against the zero-priced service. -/
def pC1 : Payment :=
  (createPayment 0 uC1 svcC1 false "t0" PaymentType.installment 20).toOption.getD dummyPayment

/-- That ledger after the admin approves obligation 1. -/
def qC1 : Payment :=
  (updatePaymentStatus 1 9 "30 days" pC1 ReqStatus.approved none (some 1)).toOption.getD dummyPayment

/-- The one-user one-ledger sweep state of the spec's Scenario B:
obligation 1 of the ledger is `pending` with a lapsed due date (for
C3's witness). -/
def stB : AdminState :=
  { users := [{ id := 1, installmentSettings := { enabled := true } }]
    payments :=
      [ { id := 1, userId := 1, serviceId := 3, transactionId := "tb"
          amount := 1000, paymentType := PaymentType.installment
          amountDue := 1000
          installments :=
            [ { installmentNumber := 1, amount := 300, percentage := 30, dueDate := -5
                status := InstStatus.pending }
            , { installmentNumber := 2, amount := 700, percentage := 70, dueDate := 99
                status := InstStatus.pending } ] } ] }

/-- A sweep state whose only ledger is `pC8b` — no obligation is
overdue in the claim's sense, yet the sweep flags its owner (for C3's
counterexample). -/
def stC3 : AdminState :=
  { users := [{ id := 2, installmentSettings := { enabled := true } }]
    payments := [pC8b] }

/-- The sweep loop skips a payment exactly when its owner is missing or
already suspicious in the given state. -/
def blockedB (st : AdminState) (p : Payment) : Bool :=
  match findUser st.users p.userId with
  | none => true
  | some u => u.isSuspicious

/-- The hook's first block touches only the three aggregate fields. -/
theorem preSaveAmounts_proj (p : Payment) :
    (preSaveAmounts p).paymentType = p.paymentType ∧
    (preSaveAmounts p).installments = p.installments ∧
    (preSaveAmounts p).amount = p.amount ∧
    (preSaveAmounts p).markedSuspicious = p.markedSuspicious ∧
    (preSaveAmounts p).id = p.id ∧
    (preSaveAmounts p).isServiceCompleted = p.isServiceCompleted := by
  unfold preSaveAmounts
  split <;> exact ⟨rfl, rfl, rfl, rfl, rfl, rfl⟩

/-- The hook's second block touches only `serviceStatus`. -/
theorem preSaveCompletion_proj (p : Payment) :
    (preSaveCompletion p).paymentType = p.paymentType ∧
    (preSaveCompletion p).installments = p.installments ∧
    (preSaveCompletion p).amount = p.amount ∧
    (preSaveCompletion p).markedSuspicious = p.markedSuspicious ∧
    (preSaveCompletion p).id = p.id ∧
    (preSaveCompletion p).amountPaid = p.amountPaid ∧
    (preSaveCompletion p).amountDue = p.amountDue ∧
    (preSaveCompletion p).paymentStatus = p.paymentStatus := by
  unfold preSaveCompletion
  split <;> exact ⟨rfl, rfl, rfl, rfl, rfl, rfl, rfl, rfl⟩

/-- The `pre('save')` hook never changes the payment mode. -/
theorem preSave_paymentType (p : Payment) : (preSave p).paymentType = p.paymentType := by
  unfold preSave
  rw [(preSaveCompletion_proj _).1, (preSaveAmounts_proj p).1]

/-- The `pre('save')` hook never changes the installment list. -/
theorem preSave_installments (p : Payment) : (preSave p).installments = p.installments := by
  unfold preSave
  rw [(preSaveCompletion_proj _).2.1, (preSaveAmounts_proj p).2.1]

/-- The `pre('save')` hook never changes the total price. -/
theorem preSave_amount (p : Payment) : (preSave p).amount = p.amount := by
  unfold preSave
  rw [(preSaveCompletion_proj _).2.2.1, (preSaveAmounts_proj p).2.2.1]

/-- The `pre('save')` hook never changes `markedSuspicious`. -/
theorem preSave_markedSuspicious (p : Payment) :
    (preSave p).markedSuspicious = p.markedSuspicious := by
  unfold preSave
  rw [(preSaveCompletion_proj _).2.2.2.1, (preSaveAmounts_proj p).2.2.2.1]

/-- The `pre('save')` hook never changes the document id. -/
theorem preSave_id (p : Payment) : (preSave p).id = p.id := by
  unfold preSave
  rw [(preSaveCompletion_proj _).2.2.2.2.1, (preSaveAmounts_proj p).2.2.2.2.1]

/-- The aggregate fields of a saved payment are those the hook's first
block computes. -/
theorem preSave_aggregates (p : Payment) :
    (preSave p).amountPaid = (preSaveAmounts p).amountPaid ∧
    (preSave p).amountDue = (preSaveAmounts p).amountDue ∧
    (preSave p).paymentStatus = (preSaveAmounts p).paymentStatus := by
  unfold preSave
  exact ⟨(preSaveCompletion_proj _).2.2.2.2.2.1,
    (preSaveCompletion_proj _).2.2.2.2.2.2.1,
    (preSaveCompletion_proj _).2.2.2.2.2.2.2⟩

/-- C5: after the admin marks an account suspicious, its installment
eligibility is forced off and `canUseInstallment` answers false even if
it was enabled before; clearing suspicion flips only the flag and never
re-enables installments — `installmentSettings.enabled` is left exactly
as it was, so re-enabling needs the separate installment-management
mutator. -/
theorem C5_trust_cascade (adminId : Nat) (now : Int) (u : User) :
    (toggleSuspicionStatus adminId now u true).isSuspicious = true ∧
    (toggleSuspicionStatus adminId now u true).installmentSettings.enabled = false ∧
    canUseInstallment (toggleSuspicionStatus adminId now u true) = false ∧
    (toggleSuspicionStatus adminId now u false).isSuspicious = false ∧
    (toggleSuspicionStatus adminId now u false).installmentSettings.enabled
      = u.installmentSettings.enabled := by
  simp [toggleSuspicionStatus, canUseInstallment]

/-- C10: for an account with installments enabled, the choose-type
query answers `canUseInstallment = true` with the full schedule even
when the account is suspicious — `choosePaymentType` and the model
helper `canUseInstallment` read only `installmentSettings.enabled`,
never `isSuspicious`; the trust flag is enforced only by
`createPayment`. -/
theorem C10_choose_type_ignores_trust (u : User) (svc : Service)
    (henabled : u.installmentSettings.enabled = true) :
    canUseInstallment { u with isSuspicious := true } = true ∧
    (∀ ptype, choosePaymentType { u with isSuspicious := true } svc ptype
      = choosePaymentType u svc ptype) ∧
    choosePaymentType { u with isSuspicious := true } svc PaymentType.installment
      = Except.ok
          { canUseInstallment := true
            installmentDetails := some (buildDetails svc.price 0 (effectiveSplits u)) } := by
  refine ⟨?_, ?_, ?_⟩
  · simp [canUseInstallment, henabled]
  · intro ptype
    rfl
  · simp [choosePaymentType, henabled, effectiveSplits]

/-- Witness for C10 at a concrete suspicious-but-enabled account. -/
theorem C10_witness :
    canUseInstallment { uC10 with isSuspicious := true } = true ∧
    (∀ ptype, choosePaymentType { uC10 with isSuspicious := true } svcC10 ptype
      = choosePaymentType uC10 svcC10 ptype) ∧
    choosePaymentType { uC10 with isSuspicious := true } svcC10 PaymentType.installment
      = Except.ok
          { canUseInstallment := true
            installmentDetails := some (buildDetails svcC10.price 0 (effectiveSplits uC10)) } :=
  C10_choose_type_ignores_trust uC10 svcC10 rfl

/-- C7: installment-mode creation for an account that is disabled or
suspicious fails with one of the two account-ineligibility responses —
and, the model being `Except`, persists nothing. -/
theorem C7_ineligible_account_rejected (now : Int) (u : User) (svc : Service)
    (txIn : String) (newId : Nat)
    (hactive : svc.isActive = true) (htx : txIn ≠ "")
    (hinelig : u.installmentSettings.enabled = false ∨ u.isSuspicious = true) :
    createPayment now u svc false txIn PaymentType.installment newId
        = Except.error CreateError.installmentsNotEnabled ∨
    createPayment now u svc false txIn PaymentType.installment newId
        = Except.error CreateError.accountSuspicious := by
  rcases hinelig with h | h
  · left
    simp [createPayment, htx, hactive, h]
  · cases he : u.installmentSettings.enabled
    · left
      simp [createPayment, htx, hactive, he]
    · right
      simp [createPayment, htx, hactive, he, h]

/-- Witness for C7 at a concrete suspicious account. -/
theorem C7_witness :
    createPayment 0 uC7 svcC7 false "t7" PaymentType.installment 1
        = Except.error CreateError.installmentsNotEnabled ∨
    createPayment 0 uC7 svcC7 false "t7" PaymentType.installment 1
        = Except.error CreateError.accountSuspicious :=
  C7_ineligible_account_rejected 0 uC7 svcC7 "t7" 1 rfl (by decide) (Or.inr rfl)

/-- For a full-mode payment the hook recomputes only the amounts and
leaves `paymentStatus` alone. -/
theorem preSave_paymentStatus_of_full (p : Payment)
    (h : p.paymentType = PaymentType.full) :
    (preSave p).paymentStatus = p.paymentStatus := by
  have hnc : ¬(p.paymentType = PaymentType.installment ∧ 0 < p.installments.length) := by
    rintro ⟨h1, _⟩
    rw [h] at h1
    cases h1
  unfold preSave
  rw [(preSaveCompletion_proj _).2.2.2.2.2.2.2]
  unfold preSaveAmounts
  rw [if_neg hnc]

/-- C8 (amended): the per-ledger overdue check holds exactly when some
single obligation is `pending` with a lapsed due date — `submitted`
obligations never count — while the sweep's query matches a ledger when
some obligation is `pending` and some (possibly different) obligation
has a lapsed due date, with the ledger not yet flagged. -/
theorem C8_overdue_predicate_amended (now : Int) (p : Payment) :
    (checkOverdueInstallments now p = true ↔
      p.paymentType = PaymentType.installment ∧
        ∃ i ∈ p.installments, OverdueOb now i) ∧
    (sweepMatch now p = true ↔
      p.paymentType = PaymentType.installment ∧
        (∃ i ∈ p.installments, i.status = InstStatus.pending) ∧
        (∃ i ∈ p.installments, i.dueDate < now) ∧
        p.markedSuspicious = false) := by
  constructor
  · by_cases hp : p.paymentType = PaymentType.installment <;>
      simp [checkOverdueInstallments, OverdueOb, hp, List.any_eq_true]
  · simp [sweepMatch, List.any_eq_true, and_assoc]

/-- Counterexample to C8 as stated: an overdue `submitted` obligation
with no decision is not counted by either check, and the sweep's query
matches a ledger none of whose obligations is overdue in the claim's
sense (the `pending` and lapsed-due-date witnesses differ). -/
theorem C8_counterexample :
    SpecOverdueOb 0 iC8 ∧
    checkOverdueInstallments 0 pC8 = false ∧
    sweepMatch 0 pC8 = false ∧
    sweepMatch 0 pC8b = true ∧
    (∀ i ∈ pC8b.installments, ¬ SpecOverdueOb 0 i) := by
  with_unfolding_all decide

/-- C9 (amended): for a full-mode ledger the admin decide operation
always succeeds and sets `paymentStatus` to exactly the requested
status — so `approved` and `rejected` are not terminal: a later request
moves the ledger to any of `pending`, `approved`, `rejected`. -/
theorem C9_full_decide_sets_requested_status (now : Int) (adminId : Nat)
    (duration : String) (p : Payment) (req : ReqStatus) (notes : Option String)
    (instNo : Option Nat) (hfull : p.paymentType = PaymentType.full) :
    ∃ q, updatePaymentStatus now adminId duration p req notes instNo = Except.ok q ∧
      q.paymentStatus = req.toPaymentStatus := by
  unfold updatePaymentStatus
  rw [hfull]
  refine ⟨_, rfl, ?_⟩
  rw [preSave_paymentStatus_of_full]
  · cases notes <;> rfl
  · cases notes <;> simp [apply_ite Payment.paymentType, hfull]

/-- Witness for C9's amended theorem: the concrete approved full-mode
ledger `pC9` moves back to `pending` on request. -/
theorem C9_witness :
    ∃ q, updatePaymentStatus 50 9 "30 days" pC9 ReqStatus.pending none none
        = Except.ok q ∧
      q.paymentStatus = ReqStatus.pending.toPaymentStatus :=
  C9_full_decide_sets_requested_status 50 9 "30 days" pC9 ReqStatus.pending none none rfl

/-- Counterexample to C9 as stated: `pC9` is full-mode and `approved`,
yet the admin decide operation moves it to `pending`. -/
theorem C9_counterexample :
    pC9.paymentType = PaymentType.full ∧
    pC9.paymentStatus = PaymentStatus.approved ∧
    updatePaymentStatus 50 9 "30 days" pC9 ReqStatus.pending none none
      = Except.ok qC9 ∧
    qC9.paymentStatus = PaymentStatus.pending ∧
    PaymentStatus.pending ≠ PaymentStatus.approved := by
  refine ⟨rfl, rfl, by with_unfolding_all rfl, by with_unfolding_all rfl, by decide⟩

/-- Rewriting the first installment with a given ordinal through an
ordinal-preserving edit commutes with looking that ordinal up. -/
theorem find_updateFirstInst (n : Nat) (f : Installment → Installment)
    (hf : ∀ i, (f i).installmentNumber = i.installmentNumber)
    (l : List Installment) :
    (updateFirstInst l n f).find? (fun i => decide (i.installmentNumber = n))
      = (l.find? (fun i => decide (i.installmentNumber = n))).map f := by
  induction l with
  | nil => rfl
  | cons i rest ih =>
    by_cases h : i.installmentNumber = n
    · rw [show updateFirstInst (i :: rest) n f = f i :: rest from by
        simp [updateFirstInst, h]]
      rw [List.find?_cons_of_pos _ (by simp [hf i, h]),
        List.find?_cons_of_pos _ (by simp [h])]
      rfl
    · rw [show updateFirstInst (i :: rest) n f = i :: updateFirstInst rest n f from by
        simp [updateFirstInst, h]]
      rw [List.find?_cons_of_neg _ (by simp [h]),
        List.find?_cons_of_neg _ (by simp [h]), ih]

/-- C2 (amended): the admin decide operation checks no status guard at
all.  Deciding an ordinal that is absent fails with the not-found error
(and, the model being `Except`, changes nothing); deciding a present
obligation always succeeds whatever its current status — approval sets
it to `paid`, rejection sets it to `rejected` and clears its
transaction reference.  No `NotSubmitted` failure exists. -/
theorem C2_decide_has_no_status_guard (now : Int) (adminId : Nat) (duration : String)
    (p : Payment) (req : ReqStatus) (notes : Option String) (n : Nat)
    (hmode : p.paymentType = PaymentType.installment) :
    (p.installments.find? (fun i => decide (i.installmentNumber = n)) = none →
      updatePaymentStatus now adminId duration p req notes (some n)
        = Except.error UpdateError.installmentNotFound) ∧
    (∀ inst, p.installments.find? (fun i => decide (i.installmentNumber = n)) = some inst →
      ∃ q, updatePaymentStatus now adminId duration p req notes (some n) = Except.ok q ∧
        (req = ReqStatus.approved →
          ∃ j, q.installments.find? (fun i => decide (i.installmentNumber = n)) = some j ∧
            j.status = InstStatus.paid) ∧
        (req = ReqStatus.rejected →
          ∃ j, q.installments.find? (fun i => decide (i.installmentNumber = n)) = some j ∧
            j.status = InstStatus.rejected ∧ j.transactionId = none)) := by
  constructor
  · intro hnone
    unfold updatePaymentStatus
    rw [hmode]
    dsimp only
    rw [hnone]
  · intro inst hfind
    unfold updatePaymentStatus
    rw [hmode]
    dsimp only
    rw [hfind]
    dsimp only
    rcases req with _ | _ | _
    · -- approved
      refine ⟨_, rfl, fun _ => ?_, fun h => absurd h (by decide)⟩
      rw [preSave_installments]
      cases notes with
      | none =>
        simp only [applyInstNotes, apply_ite Payment.installments, ite_self]
        rw [find_updateFirstInst n (fun i =>
            { i with status := InstStatus.paid, paidDate := some now,
                     approvedBy := some adminId, approvedAt := some now })
          (fun i => rfl), hfind]
        exact ⟨_, rfl, rfl⟩
      | some txt =>
        simp only [applyInstNotes, apply_ite Payment.installments, ite_self]
        rw [find_updateFirstInst n (fun i => { i with notes := some txt }) (fun i => rfl),
          find_updateFirstInst n (fun i =>
            { i with status := InstStatus.paid, paidDate := some now,
                     approvedBy := some adminId, approvedAt := some now })
          (fun i => rfl), hfind]
        exact ⟨_, rfl, rfl⟩
    · -- rejected
      refine ⟨_, rfl, fun h => absurd h (by decide), fun _ => ?_⟩
      rw [preSave_installments]
      cases notes with
      | none =>
        simp only [applyInstNotes]
        rw [find_updateFirstInst n (fun i =>
            { i with status := InstStatus.rejected, rejectedAt := some now,
                     rejectedBy := some adminId, transactionId := none })
          (fun i => rfl), hfind]
        exact ⟨_, rfl, rfl, rfl⟩
      | some txt =>
        simp only [applyInstNotes]
        rw [find_updateFirstInst n (fun i => { i with notes := some txt }) (fun i => rfl),
          find_updateFirstInst n (fun i =>
            { i with status := InstStatus.rejected, rejectedAt := some now,
                     rejectedBy := some adminId, transactionId := none })
          (fun i => rfl), hfind]
        exact ⟨_, rfl, rfl, rfl⟩
    · -- pending
      exact ⟨_, rfl, fun h => absurd h (by decide), fun h => absurd h (by decide)⟩

/-- Witness for C2's amended theorem: approving the still-`pending`
first obligation of `pC2` succeeds and marks it `paid`. -/
theorem C2_witness :
    ∃ q, updatePaymentStatus 10 9 "30 days" pC2 ReqStatus.approved none (some 1)
        = Except.ok q ∧
      ∃ j, q.installments.find? (fun i => decide (i.installmentNumber = 1)) = some j ∧
        j.status = InstStatus.paid := by
  obtain ⟨q, hq, hap, _⟩ :=
    (C2_decide_has_no_status_guard 10 9 "30 days" pC2 ReqStatus.approved none 1 rfl).2
      { installmentNumber := 1, amount := 30, percentage := 30, dueDate := 0
        status := InstStatus.pending } (by with_unfolding_all rfl)
  exact ⟨q, hq, hap rfl⟩

/-- Counterexample to C2 as stated: obligation 1 of `pC2` is `pending`,
not `submitted`, yet deciding it succeeds (no `NotSubmitted` failure)
and the ledger is mutated — the obligation comes out `paid`. -/
theorem C2_counterexample :
    (∀ i ∈ pC2.installments, i.status ≠ InstStatus.submitted) ∧
    updatePaymentStatus 10 9 "30 days" pC2 ReqStatus.approved none (some 1)
      = Except.ok qC2 ∧
    qC2 ≠ pC2 ∧
    (∃ i ∈ qC2.installments, i.installmentNumber = 1 ∧ i.status = InstStatus.paid) := by
  refine ⟨by decide, by with_unfolding_all rfl, by with_unfolding_all decide,
    by with_unfolding_all decide⟩

/-- The template `createPayment` consults is never empty: either the
user's stored splits are non-empty or the two-way default stands. -/
theorem effectiveSplits_ne_nil (u : User) : effectiveSplits u ≠ [] := by
  unfold effectiveSplits
  split
  · next hlen =>
    intro h
    rw [h] at hlen
    exact absurd hlen (by decide)
  · simp [defaultSplitTemplate]

/-- Away from index 0, the built installments and the prescribed plan
agree — only index 0 is special-cased on either side. -/
theorem buildInsts_eq_specPlanAux_succ (price : ℚ) (now : Int) (ref : String)
    (splits : List Split) :
    ∀ k : Nat, buildInsts price now ref (k + 1) splits
      = specPlanAux price now ref (k + 1) splits := by
  induction splits with
  | nil => intro k; rfl
  | cons s rest ih =>
    intro k
    simp only [buildInsts, specPlanAux, Nat.succ_ne_zero, if_false]
    rw [ih (k + 1)]

/-- On a non-empty template, the installment branch of `createPayment`
attaches exactly the prescribed plan. -/
theorem installmentData_cons (base : Payment) (price : ℚ) (now : Int) (tx : String)
    (s : Split) (rest : List Split) :
    installmentData base price now tx (s :: rest)
      = { base with installments := specPlan price now tx (s :: rest)
                    amountPaid := 0
                    amountDue := price } := by
  have htail := buildInsts_eq_specPlanAux_succ price now tx rest 0
  simp only [installmentData, buildInsts, specPlan, specPlanAux, htail,
    eq_self_iff_true, if_true]

/-- Unfolding `instTotal` over a cons cell. -/
theorem instTotal_cons (i : Installment) (l : List Installment) :
    instTotal (i :: l) = i.amount + instTotal l := by
  simp [instTotal]

/-- The amounts of a prescribed plan sum to
`price * (sum of percentages) / 100`. -/
theorem instTotal_specPlanAux (price : ℚ) (now : Int) (ref : String)
    (splits : List Split) :
    ∀ k : Nat, instTotal (specPlanAux price now ref k splits)
      = price * ((splits.map Split.percentage).sum) / 100 := by
  induction splits with
  | nil => intro k; simp [specPlanAux, instTotal]
  | cons s rest ih =>
    intro k
    simp only [specPlanAux]
    rw [instTotal_cons, ih (k + 1)]
    simp only [List.map_cons, List.sum_cons]
    ring

/-- A prescribed plan has one obligation per split. -/
theorem specPlanAux_length (price : ℚ) (now : Int) (ref : String)
    (splits : List Split) :
    ∀ k : Nat, (specPlanAux price now ref k splits).length = splits.length := by
  induction splits with
  | nil => intro k; rfl
  | cons s rest ih =>
    intro k
    simp [specPlanAux, ih (k + 1)]

/-- No obligation of a freshly prescribed plan is `paid`. -/
theorem specPlanAux_not_paid (price : ℚ) (now : Int) (ref : String)
    (splits : List Split) :
    ∀ (k : Nat), ∀ i ∈ specPlanAux price now ref k splits,
      i.status ≠ InstStatus.paid := by
  induction splits with
  | nil => intro k i hi; simp [specPlanAux] at hi
  | cons s rest ih =>
    intro k i hi
    simp only [specPlanAux, List.mem_cons] at hi
    rcases hi with rfl | hi
    · by_cases hk : k = 0 <;> simp [hk]
    · exact ih (k + 1) i hi

/-- A list with no `paid` installment filters down to nothing. -/
theorem paidInstallments_eq_nil (l : List Installment)
    (h : ∀ i ∈ l, i.status ≠ InstStatus.paid) : paidInstallments l = [] := by
  unfold paidInstallments
  rw [List.filter_eq_nil_iff]
  intro i hi
  simpa using h i hi

/-- Saving a base record carrying a fresh (no `paid` obligation) plan:
the hook recomputes `amountPaid = 0` and `amountDue` as the plan's
total, leaving price, mode and the plan itself alone. -/
theorem preSave_fields_of_plan (base : Payment) (plan : List Installment) (price : ℚ)
    (hpt : base.paymentType = PaymentType.installment)
    (hne : plan ≠ [])
    (hnp : ∀ i ∈ plan, i.status ≠ InstStatus.paid) :
    (preSave { base with installments := plan, amountPaid := 0, amountDue := price }).amount
        = base.amount ∧
    (preSave { base with installments := plan, amountPaid := 0, amountDue := price }).installments
        = plan ∧
    (preSave { base with installments := plan, amountPaid := 0, amountDue := price }).amountPaid
        = 0 ∧
    (preSave { base with installments := plan, amountPaid := 0, amountDue := price }).amountDue
        = instTotal plan := by
  have hcond : ({ base with installments := plan, amountPaid := 0, amountDue := price }
        : Payment).paymentType = PaymentType.installment ∧
      0 < ({ base with installments := plan, amountPaid := 0, amountDue := price }
        : Payment).installments.length := by
    exact ⟨hpt, List.length_pos.mpr hne⟩
  refine ⟨preSave_amount _, preSave_installments _, ?_, ?_⟩
  · rw [(preSave_aggregates _).1]
    unfold preSaveAmounts
    rw [if_pos hcond]
    show instTotal (paidInstallments plan) = 0
    rw [paidInstallments_eq_nil plan hnp]
    rfl
  · rw [(preSave_aggregates _).2.1]
    unfold preSaveAmounts
    rw [if_pos hcond]
    show instTotal plan - instTotal (paidInstallments plan) = instTotal plan
    rw [paidInstallments_eq_nil plan hnp]
    simp [instTotal]

/-- Successful installment creation in one statement: the ledger comes
out with the prescribed plan, `amountPaid = 0` and `amountDue` equal to
the plan's total. -/
theorem createPayment_installment_spec (now : Int) (u : User) (svc : Service)
    (txIn : String) (newId : Nat)
    (hactive : svc.isActive = true) (htx : txIn ≠ "")
    (henabled : u.installmentSettings.enabled = true) (hsusp : u.isSuspicious = false) :
    ∃ p, createPayment now u svc false txIn PaymentType.installment newId = Except.ok p ∧
      p.amount = svc.price ∧
      p.installments = specPlan svc.price now (jsTrim txIn) (effectiveSplits u) ∧
      p.amountPaid = 0 ∧
      p.amountDue = instTotal (specPlan svc.price now (jsTrim txIn) (effectiveSplits u)) := by
  have hok : createPayment now u svc false txIn PaymentType.installment newId
      = Except.ok (preSave (installmentData
          (createBase u svc (jsTrim txIn) PaymentType.installment newId)
          svc.price now (jsTrim txIn) (effectiveSplits u))) := by
    simp [createPayment, htx, hactive, henabled, hsusp]
  cases hsp : effectiveSplits u with
  | nil => exact absurd hsp (effectiveSplits_ne_nil u)
  | cons s rest =>
    rw [hsp, installmentData_cons] at hok
    obtain ⟨ham, hins, hpaid, hdue⟩ :=
      preSave_fields_of_plan (createBase u svc (jsTrim txIn) PaymentType.installment newId)
        (specPlan svc.price now (jsTrim txIn) (s :: rest)) svc.price rfl
        (by simp [specPlan, specPlanAux])
        (specPlanAux_not_paid svc.price now (jsTrim txIn) (s :: rest) 0)
    exact ⟨_, hok, ham, hins, hpaid, hdue⟩

/-- C4 (amended): on successful installment creation the obligation
list is exactly the template in order — the i-th obligation has ordinal
i+1, the unrounded amount `price * percentage / 100`, due date
`now + offset`; the first is `submitted` carrying the trimmed
initiating reference while the rest are `pending` — and after the save
hook `amountPaid = 0`, with `amountDue = totalPrice` whenever the
template's percentages sum to 100 (amounts are never rounded). -/
theorem C4_plan_creation_amended (now : Int) (u : User) (svc : Service)
    (txIn : String) (newId : Nat)
    (hactive : svc.isActive = true) (htx : txIn ≠ "")
    (henabled : u.installmentSettings.enabled = true) (hsusp : u.isSuspicious = false) :
    ∃ p, createPayment now u svc false txIn PaymentType.installment newId = Except.ok p ∧
      p.amount = svc.price ∧
      p.installments = specPlan svc.price now (jsTrim txIn) (effectiveSplits u) ∧
      p.amountPaid = 0 ∧
      (((effectiveSplits u).map Split.percentage).sum = 100 → p.amountDue = svc.price) := by
  obtain ⟨p, hok, ham, hins, hpaid, hdue⟩ :=
    createPayment_installment_spec now u svc txIn newId hactive htx henabled hsusp
  refine ⟨p, hok, ham, hins, hpaid, fun hsum => ?_⟩
  rw [hdue]
  unfold specPlan
  rw [instTotal_specPlanAux _ _ _ _ 0, hsum]
  ring

/-- Witness for C4's amended theorem at the concrete enabled account
`uC4` and the 5-priced service `svcC4`. -/
theorem C4_witness :
    ∃ p, createPayment 0 uC4 svcC4 false "t4" PaymentType.installment 11 = Except.ok p ∧
      p.amount = svcC4.price ∧
      p.installments = specPlan svcC4.price 0 (jsTrim "t4") (effectiveSplits uC4) ∧
      p.amountPaid = 0 ∧
      (((effectiveSplits uC4).map Split.percentage).sum = 100 → p.amountDue = svcC4.price) :=
  C4_plan_creation_amended 0 uC4 svcC4 "t4" 11 rfl (by decide) rfl rfl

/-- Counterexample to C4 as stated: with price 5 and the default 30/70
template the first obligation's amount is the unrounded 3/2, which
differs from `round(price * percentage / 100) = 2`. -/
theorem C4_counterexample :
    createPayment 0 uC4 svcC4 false "t4" PaymentType.installment 11 = Except.ok qC4 ∧
    qC4.installments.map Installment.amount = [3/2, 7/2] ∧
    ((3 : ℚ)/2 ≠ ((round ((3 : ℚ)/2) : ℤ) : ℚ)) := by
  refine ⟨by with_unfolding_all rfl, by with_unfolding_all rfl,
    by with_unfolding_all decide⟩

/-- The split objects built by `setInstallmentSplits` carry exactly the
requested percentages. -/
theorem mkSplitObjects_map_percentage (splits : List ℚ) :
    ∀ k : Nat, (mkSplitObjects k splits).map Split.percentage = splits := by
  induction splits with
  | nil => intro k; rfl
  | cons x rest ih =>
    intro k
    simp [mkSplitObjects, ih (k + 1)]

/-- C6 (amended): split validation happens when an administrator
configures the template, not at plan creation.  `setInstallmentSplits`
rejects fewer than two splits, then a sum other than 100 (the
`InvalidSplit` responses), and the save's schema validation rejects any
percentage outside [1, 100]; in each case nothing persists.  Plan
creation itself performs no percentage validation: with the eligibility
gates passing it succeeds and produces one obligation per template
entry whatever the stored percentages sum to. -/
theorem C6_split_validation_amended (adminId : Nat) (now : Int) (u : User)
    (splits : List ℚ) :
    (splits.length < 2 →
      setInstallmentSplits adminId now u splits = Except.error SplitsError.tooFewSplits) ∧
    (2 ≤ splits.length → splits.sum ≠ 100 →
      setInstallmentSplits adminId now u splits = Except.error SplitsError.sumNot100) ∧
    (2 ≤ splits.length → splits.sum = 100 → (∃ x ∈ splits, x < 1 ∨ 100 < x) →
      setInstallmentSplits adminId now u splits
        = Except.error SplitsError.schemaValidation) ∧
    (∀ (now2 : Int) (svc : Service) (txIn : String) (newId : Nat),
      svc.isActive = true → txIn ≠ "" →
      u.installmentSettings.enabled = true → u.isSuspicious = false →
      ∃ p, createPayment now2 u svc false txIn PaymentType.installment newId
          = Except.ok p ∧
        p.installments.length = (effectiveSplits u).length) := by
  refine ⟨?_, ?_, ?_, ?_⟩
  · intro h
    unfold setInstallmentSplits
    rw [if_pos h]
  · intro h2 hsum
    unfold setInstallmentSplits
    rw [if_neg (by omega), if_pos hsum]
  · intro h2 hsum hbad
    unfold setInstallmentSplits
    rw [if_neg (by omega), if_neg (by simp [hsum])]
    have hall : (mkSplitObjects 0 splits).all
        (fun s => decide (1 ≤ s.percentage ∧ s.percentage ≤ 100)) = false := by
      obtain ⟨x, hx, hxb⟩ := hbad
      have hxmem : x ∈ (mkSplitObjects 0 splits).map Split.percentage := by
        rw [mkSplitObjects_map_percentage splits 0]
        exact hx
      obtain ⟨sobj, hs, hsx⟩ := List.mem_map.mp hxmem
      cases hres : (mkSplitObjects 0 splits).all
          (fun s => decide (1 ≤ s.percentage ∧ s.percentage ≤ 100))
      · rfl
      · exfalso
        have hin := List.all_eq_true.mp hres sobj hs
        rw [decide_eq_true_eq] at hin
        rw [hsx] at hin
        rcases hxb with hlt | hgt
        · exact absurd hin.1 (not_le.mpr hlt)
        · exact absurd hin.2 (not_le.mpr hgt)
    rw [if_neg (by rw [hall]; decide)]
  · intro now2 svc txIn newId hactive htx henabled hsusp
    obtain ⟨p, hok, _, hins, _, _⟩ :=
      createPayment_installment_spec now2 u svc txIn newId hactive htx henabled hsusp
    refine ⟨p, hok, ?_⟩
    rw [hins]
    unfold specPlan
    exact specPlanAux_length _ _ _ _ 0

/-- Witness for C6's amended theorem: the 50/60 request (sum 110) is
rejected with the sum error, while creation for the account `uC6`,
whose stored template sums to 60, still succeeds with two
obligations. -/
theorem C6_witness :
    setInstallmentSplits 1 0 uC6 [50, 60] = Except.error SplitsError.sumNot100 ∧
    ∃ p, createPayment 0 uC6 svcC6 false "t6" PaymentType.installment 7
        = Except.ok p ∧
      p.installments.length = (effectiveSplits uC6).length := by
  constructor
  · exact (C6_split_validation_amended 1 0 uC6 [50, 60]).2.1 (by decide)
      (by with_unfolding_all decide)
  · exact (C6_split_validation_amended 1 0 uC6 [50, 60]).2.2.2 0 svcC6 "t6" 7 rfl
      (by decide) rfl rfl

/-- Counterexample to C6 as stated: the stored template of `uC6` sums
to 60, yet creating an installment plan for it succeeds and produces
obligations — no `InvalidSplit` failure occurs at creation. -/
theorem C6_counterexample :
    (uC6.installmentSettings.splits.map Split.percentage).sum ≠ 100 ∧
    createPayment 0 uC6 svcC6 false "t6" PaymentType.installment 7 = Except.ok qC6 ∧
    qC6.installments ≠ [] := by
  refine ⟨by with_unfolding_all decide, by with_unfolding_all rfl,
    by with_unfolding_all decide⟩

/-- Filtering the paid installments over a cons cell. -/
theorem paidInstallments_cons (i : Installment) (l : List Installment) :
    paidInstallments (i :: l)
      = if i.status = InstStatus.paid then i :: paidInstallments l
        else paidInstallments l := by
  by_cases h : i.status = InstStatus.paid <;>
    simp [paidInstallments, List.filter_cons, h]

/-- A list of nonnegative amounts has a nonnegative total. -/
theorem instTotal_nonneg (l : List Installment) (h : ∀ i ∈ l, 0 ≤ i.amount) :
    0 ≤ instTotal l := by
  unfold instTotal
  apply List.sum_nonneg
  intro x hx
  obtain ⟨i, hi, rfl⟩ := List.mem_map.mp hx
  exact h i hi

/-- A non-empty list of positive amounts has a positive total. -/
theorem instTotal_pos (l : List Installment) (hne : l ≠ [])
    (h : ∀ i ∈ l, 0 < i.amount) : 0 < instTotal l := by
  unfold instTotal
  apply List.sum_pos
  · intro x hx
    obtain ⟨i, hi, rfl⟩ := List.mem_map.mp hx
    exact h i hi
  · simpa using hne

/-- The paid amounts never exceed the total. -/
theorem paidTotal_le_total (l : List Installment) (h : ∀ i ∈ l, 0 ≤ i.amount) :
    instTotal (paidInstallments l) ≤ instTotal l := by
  induction l with
  | nil => exact le_refl 0
  | cons i t ih =>
    have hi := h i (List.mem_cons_self i t)
    have iht := ih (fun j hj => h j (List.mem_cons_of_mem i hj))
    rw [paidInstallments_cons, instTotal_cons]
    by_cases hp : i.status = InstStatus.paid
    · rw [if_pos hp, instTotal_cons]
      linarith
    · rw [if_neg hp]
      linarith

/-- With positive amounts, the paid total vanishes exactly when no
installment is `paid`. -/
theorem paidTotal_eq_zero_iff (l : List Installment)
    (hpos : ∀ i ∈ l, 0 < i.amount) :
    instTotal (paidInstallments l) = 0 ↔ ∀ i ∈ l, i.status ≠ InstStatus.paid := by
  induction l with
  | nil => simp [paidInstallments, instTotal]
  | cons i t ih =>
    have hpt := ih (fun j hj => hpos j (List.mem_cons_of_mem i hj))
    have hnn : 0 ≤ instTotal (paidInstallments t) :=
      instTotal_nonneg _ (fun j hj =>
        le_of_lt (hpos j (List.mem_cons_of_mem i (List.mem_of_mem_filter hj))))
    have hip := hpos i (List.mem_cons_self i t)
    rw [paidInstallments_cons]
    by_cases hp : i.status = InstStatus.paid
    · rw [if_pos hp, instTotal_cons]
      constructor
      · intro h0
        exfalso
        linarith
      · intro hall
        exact absurd hp (hall i (List.mem_cons_self i t))
    · rw [if_neg hp]
      rw [hpt]
      constructor
      · intro hall j hj
        rcases List.mem_cons.mp hj with rfl | hj2
        · exact hp
        · exact hall j hj2
      · intro hall j hj
        exact hall j (List.mem_cons_of_mem i hj)

/-- With positive amounts, the paid total reaches the full total
exactly when every installment is `paid`. -/
theorem paidTotal_eq_total_iff (l : List Installment)
    (hpos : ∀ i ∈ l, 0 < i.amount) :
    instTotal (paidInstallments l) = instTotal l
      ↔ ∀ i ∈ l, i.status = InstStatus.paid := by
  induction l with
  | nil => simp [paidInstallments, instTotal]
  | cons i t ih =>
    have hposT := fun j hj => hpos j (List.mem_cons_of_mem i hj)
    have hpt := ih hposT
    have hle : instTotal (paidInstallments t) ≤ instTotal t :=
      paidTotal_le_total t (fun j hj => le_of_lt (hposT j hj))
    have hip := hpos i (List.mem_cons_self i t)
    rw [paidInstallments_cons, instTotal_cons]
    by_cases hp : i.status = InstStatus.paid
    · rw [if_pos hp, instTotal_cons]
      constructor
      · intro heq j hj
        rcases List.mem_cons.mp hj with rfl | hj2
        · exact hp
        · exact hpt.mp (by linarith) j hj2
      · intro hall
        have := hpt.mpr (fun j hj => hall j (List.mem_cons_of_mem i hj))
        linarith
    · rw [if_neg hp]
      constructor
      · intro heq
        exfalso
        linarith
      · intro hall
        exact absurd (hall i (List.mem_cons_self i t)) hp

/-- C1 (amended): after every save — the `pre('save')` hook — a
full-mode ledger satisfies `amountPaid + amountDue = totalPrice`, and,
when the price is positive, `amountPaid = totalPrice` exactly when the
status is `approved`.  An installment ledger with obligations satisfies
`amountPaid = Σ(paid obligation amounts)` unconditionally; when every
obligation amount is positive and the amounts sum to the total price
(true of plans built from a valid template at a positive price),
`amountDue = totalPrice − amountPaid` and the status classification
holds: all-paid → `approved`, none-paid → `pending`, mixed →
`partial`.  The positivity and sum side conditions are necessary: the
hook classifies by paid amount, not by paid count, and computes
`amountDue` against the sum of obligation amounts, not the price. -/
theorem C1_ledger_aggregates_amended (p : Payment) :
    ((preSave p).paymentType = PaymentType.full →
      (preSave p).amountPaid + (preSave p).amountDue = (preSave p).amount ∧
      (0 < (preSave p).amount →
        ((preSave p).amountPaid = (preSave p).amount ↔
          (preSave p).paymentStatus = PaymentStatus.approved))) ∧
    ((preSave p).paymentType = PaymentType.installment →
      (preSave p).installments ≠ [] →
      (preSave p).amountPaid = instTotal (paidInstallments (preSave p).installments) ∧
      ((∀ i ∈ (preSave p).installments, 0 < i.amount) →
        (instTotal (preSave p).installments = (preSave p).amount →
          (preSave p).amountDue = (preSave p).amount - (preSave p).amountPaid) ∧
        ((∀ i ∈ (preSave p).installments, i.status = InstStatus.paid) →
          (preSave p).paymentStatus = PaymentStatus.approved) ∧
        ((∀ i ∈ (preSave p).installments, i.status ≠ InstStatus.paid) →
          (preSave p).paymentStatus = PaymentStatus.pending) ∧
        ((∃ i ∈ (preSave p).installments, i.status = InstStatus.paid) →
          (∃ i ∈ (preSave p).installments, i.status ≠ InstStatus.paid) →
          (preSave p).paymentStatus = PaymentStatus.partPaid))) := by
  constructor
  · intro hfull
    rw [preSave_paymentType] at hfull
    have hnc : ¬(p.paymentType = PaymentType.installment ∧ 0 < p.installments.length) := by
      rintro ⟨h1, _⟩
      rw [hfull] at h1
      cases h1
    have hPaid : (preSave p).amountPaid
        = (if p.paymentStatus = PaymentStatus.approved then p.amount else 0) := by
      rw [(preSave_aggregates p).1]
      unfold preSaveAmounts
      rw [if_neg hnc]
    have hDue : (preSave p).amountDue
        = p.amount - (if p.paymentStatus = PaymentStatus.approved then p.amount else 0) := by
      rw [(preSave_aggregates p).2.1]
      unfold preSaveAmounts
      rw [if_neg hnc]
    have hSt : (preSave p).paymentStatus = p.paymentStatus :=
      preSave_paymentStatus_of_full p hfull
    have hAm : (preSave p).amount = p.amount := preSave_amount p
    constructor
    · rw [hPaid, hDue, hAm]
      ring
    · intro hpos
      rw [hAm] at hpos
      rw [hPaid, hSt, hAm]
      by_cases hap : p.paymentStatus = PaymentStatus.approved
      · rw [if_pos hap]
        exact iff_of_true rfl hap
      · rw [if_neg hap]
        refine iff_of_false ?_ hap
        intro h0
        rw [← h0] at hpos
        exact lt_irrefl 0 hpos
  · intro hmode hne
    rw [preSave_paymentType] at hmode
    rw [preSave_installments] at hne
    have hcond : p.paymentType = PaymentType.installment ∧ 0 < p.installments.length :=
      ⟨hmode, List.length_pos.mpr hne⟩
    have hPaid : (preSave p).amountPaid = instTotal (paidInstallments p.installments) := by
      rw [(preSave_aggregates p).1]
      unfold preSaveAmounts
      rw [if_pos hcond]
    have hDue : (preSave p).amountDue
        = instTotal p.installments - instTotal (paidInstallments p.installments) := by
      rw [(preSave_aggregates p).2.1]
      unfold preSaveAmounts
      rw [if_pos hcond]
    have hSt : (preSave p).paymentStatus
        = (if instTotal (paidInstallments p.installments) = 0 then PaymentStatus.pending
           else if instTotal (paidInstallments p.installments) = instTotal p.installments
             then PaymentStatus.approved
           else PaymentStatus.partPaid) := by
      rw [(preSave_aggregates p).2.2]
      unfold preSaveAmounts
      rw [if_pos hcond]
    rw [preSave_installments, preSave_amount]
    refine ⟨hPaid, fun hpos => ⟨?_, ?_, ?_, ?_⟩⟩
    · intro htot
      rw [hDue, hPaid, htot]
    · intro hall
      have heq : instTotal (paidInstallments p.installments) = instTotal p.installments :=
        (paidTotal_eq_total_iff _ hpos).mpr hall
      have htpos : 0 < instTotal p.installments := instTotal_pos _ hne hpos
      rw [hSt, if_neg (by rw [heq]; exact htpos.ne'), if_pos heq]
    · intro hnone
      have hz : instTotal (paidInstallments p.installments) = 0 :=
        (paidTotal_eq_zero_iff _ hpos).mpr hnone
      rw [hSt, if_pos hz]
    · rintro ⟨i, hi, hip⟩ ⟨j, hj, hjn⟩
      have hz : instTotal (paidInstallments p.installments) ≠ 0 := by
        intro h0
        exact absurd hip ((paidTotal_eq_zero_iff _ hpos).mp h0 i hi)
      have ht : instTotal (paidInstallments p.installments) ≠ instTotal p.installments := by
        intro h0
        exact hjn ((paidTotal_eq_total_iff _ hpos).mp h0 j hj)
      rw [hSt, if_neg hz, if_neg ht]

/-- Witness for C1's amended theorem at the ledger `qC2` (installments
30 paid / 70 pending of a 100 total): the hook reports the paid sum and
classifies the mixed state as `partial`. -/
theorem C1_witness :
    (preSave qC2).amountPaid = instTotal (paidInstallments (preSave qC2).installments) ∧
    (preSave qC2).paymentStatus = PaymentStatus.partPaid := by
  have h := (C1_ledger_aggregates_amended qC2).2 (by with_unfolding_all rfl)
    (by with_unfolding_all decide)
  exact ⟨h.1, (h.2 (by with_unfolding_all decide)).2.2.2
    (by with_unfolding_all decide) (by with_unfolding_all decide)⟩

/-- Counterexample to C1 as stated: the zero-priced service `svcC1` is
storable (`price` has floor 0); creating an installment ledger for it
and approving obligation 1 yields a reachable saved ledger with one
`paid` and one unpaid obligation whose status is `pending`, not
`partial` — the hook classifies by paid amount, which is 0 here. -/
theorem C1_counterexample :
    createPayment 0 uC1 svcC1 false "t0" PaymentType.installment 20 = Except.ok pC1 ∧
    updatePaymentStatus 1 9 "30 days" pC1 ReqStatus.approved none (some 1)
      = Except.ok qC1 ∧
    qC1.paymentType = PaymentType.installment ∧
    qC1.installments ≠ [] ∧
    (∃ i ∈ qC1.installments, i.status = InstStatus.paid) ∧
    (∃ i ∈ qC1.installments, i.status ≠ InstStatus.paid) ∧
    qC1.paymentStatus ≠ PaymentStatus.partPaid := by
  refine ⟨by with_unfolding_all rfl, by with_unfolding_all rfl,
    by with_unfolding_all rfl, by with_unfolding_all decide,
    by with_unfolding_all decide, by with_unfolding_all decide,
    by with_unfolding_all decide⟩

/-- Flagging preserves the account identity. -/
theorem flagUser_id (u : User) : (flagUser u).id = u.id := rfl

/-- A successful lookup returns the account with the asked id. -/
theorem findUser_id (users : List User) (uid : Nat) (u : User)
    (h : findUser users uid = some u) : u.id = uid := by
  have := List.find?_some h
  simpa using this

/-- Looking up after the sweep's user write is looking up before it,
with the write applied when the ids coincide. -/
theorem findUser_storeFlagUser (uid0 uid : Nat) (users : List User) :
    findUser (storeFlagUser users uid0) uid
      = (findUser users uid).map (fun u => if u.id = uid0 then flagUser u else u) := by
  have hgid : ∀ v : User, (if v.id = uid0 then flagUser v else v).id = v.id := by
    intro v
    by_cases h0 : v.id = uid0 <;> simp [h0, flagUser]
  induction users with
  | nil => rfl
  | cons u rest ih =>
    show findUser ((if u.id = uid0 then flagUser u else u) :: storeFlagUser rest uid0) uid
      = (findUser (u :: rest) uid).map _
    by_cases h : u.id = uid
    · unfold findUser
      rw [List.find?_cons_of_pos _ (by rw [hgid u]; simp [h]),
        List.find?_cons_of_pos _ (by simp [h])]
      rfl
    · unfold findUser
      rw [List.find?_cons_of_neg _ (by rw [hgid u]; simp [h]),
        List.find?_cons_of_neg _ (by simp [h])]
      exact ih

/-- A member of the payment store after the sweep's payment write is
the written document or an untouched original. -/
theorem storePayment_mem (payments : List Payment) (saved q : Payment)
    (hq : q ∈ storePayment payments saved) : q = saved ∨ q ∈ payments := by
  unfold storePayment at hq
  obtain ⟨r, hr, rfl⟩ := List.mem_map.mp hq
  by_cases h : r.id = saved.id
  · left
    simp [h]
  · right
    simpa [h] using hr

/-- After the sweep's payment write, every stored document with the
written id is the (flagged) written document. -/
theorem storePayment_id_marked (payments : List Payment) (saved q : Payment)
    (hsv : saved.markedSuspicious = true)
    (hq : q ∈ storePayment payments saved) (hid : q.id = saved.id)
    (hinv : ∀ r ∈ payments, r.id = saved.id → r.markedSuspicious = true) :
    q.markedSuspicious = true := by
  rcases storePayment_mem payments saved q hq with rfl | hmem
  · exact hsv
  · exact hinv q hmem hid

/-- Reduction: the empty sweep loop. -/
theorem sweepLoop_nil (now : Int) (st : AdminState) :
    sweepLoop now [] st = (st, []) := rfl

/-- Reduction: a payment whose owner is missing is skipped. -/
theorem sweepLoop_cons_none (now : Int) (p : Payment) (rest : List Payment)
    (st : AdminState) (h : findUser st.users p.userId = none) :
    sweepLoop now (p :: rest) st = sweepLoop now rest st := by
  conv_lhs => rw [sweepLoop]
  rw [h]

/-- Reduction: a payment whose owner is already suspicious is
skipped. -/
theorem sweepLoop_cons_skip (now : Int) (p : Payment) (rest : List Payment)
    (st : AdminState) (u : User) (h : findUser st.users p.userId = some u)
    (hs : u.isSuspicious = true) :
    sweepLoop now (p :: rest) st = sweepLoop now rest st := by
  conv_lhs => rw [sweepLoop]
  rw [h]
  simp only [hs, if_true]

/-- Reduction: a payment whose owner exists and is not suspicious is
processed. -/
theorem sweepLoop_cons_proc (now : Int) (p : Payment) (rest : List Payment)
    (st : AdminState) (u : User) (h : findUser st.users p.userId = some u)
    (hs : u.isSuspicious = false) :
    sweepLoop now (p :: rest) st
      = ((sweepLoop now rest (sweepStepState st p)).1,
         { userId := p.userId, paymentId := p.id }
           :: (sweepLoop now rest (sweepStepState st p)).2) := by
  conv_lhs => rw [sweepLoop]
  rw [h]
  simp only [hs, Bool.false_eq_true, if_false]

/-- After the sweep's payment write, a stored document carrying the
written id is the written document itself. -/
theorem storePayment_id_eq (payments : List Payment) (saved q : Payment)
    (hq : q ∈ storePayment payments saved) (hid : q.id = saved.id) : q = saved := by
  unfold storePayment at hq
  obtain ⟨r, hr, rfl⟩ := List.mem_map.mp hq
  by_cases h : r.id = saved.id
  · simp [h]
  · rw [if_neg h] at hid ⊢
    exact absurd hid h

/-- An unsuspicious lookup result is untouched by the sweep's user
write. -/
theorem storeFlagUser_unsusp_back (users : List User) (uid0 uid : Nat) (u' : User)
    (hf : findUser (storeFlagUser users uid0) uid = some u')
    (hs : u'.isSuspicious = false) : findUser users uid = some u' := by
  rw [findUser_storeFlagUser] at hf
  cases hf0 : findUser users uid with
  | none => rw [hf0] at hf; cases hf
  | some u0 =>
    rw [hf0] at hf
    by_cases h : u0.id = uid0
    · rw [Option.map_some', if_pos h] at hf
      cases hf
      cases hs
    · rw [Option.map_some', if_neg h] at hf
      exact hf


/-- The sweep's query predicate only matches unflagged ledgers. -/
theorem sweepMatch_not_marked (now : Int) (p : Payment)
    (h : sweepMatch now p = true) : p.markedSuspicious = false := by
  unfold sweepMatch at h
  simp only [Bool.and_eq_true, Bool.not_eq_true'] at h
  exact h.2

/-- Through the whole sweep loop, a suspicious account stays
suspicious. -/
theorem sweepLoop_preserves_susp (now : Int) :
    ∀ (ps : List Payment) (st : AdminState) (uid : Nat) (u : User),
      findUser st.users uid = some u → u.isSuspicious = true →
      ∃ u', findUser (sweepLoop now ps st).1.users uid = some u' ∧
        u'.isSuspicious = true := by
  intro ps
  induction ps with
  | nil =>
    intro st uid u hf hs
    exact ⟨u, by rw [sweepLoop_nil]; exact hf, hs⟩
  | cons p rest ih =>
    intro st uid u hf hs
    cases hfu : findUser st.users p.userId with
    | none =>
      rw [sweepLoop_cons_none now p rest st hfu]
      exact ih st uid u hf hs
    | some v =>
      cases hvs : v.isSuspicious with
      | true =>
        rw [sweepLoop_cons_skip now p rest st v hfu hvs]
        exact ih st uid u hf hs
      | false =>
        rw [sweepLoop_cons_proc now p rest st v hfu hvs]
        have hf1 : findUser (sweepStepState st p).users uid
            = some (if u.id = p.userId then flagUser u else u) := by
          show findUser (storeFlagUser st.users p.userId) uid = _
          rw [findUser_storeFlagUser, hf]
          rfl
        by_cases hcase : u.id = p.userId
        · exact ih _ uid (flagUser u) (by rw [hf1, if_pos hcase]) rfl
        · exact ih _ uid u (by rw [hf1, if_neg hcase]) hs

/-- Through the whole sweep loop, a suspicious-and-disabled account
stays suspicious and disabled. -/
theorem sweepLoop_preserves_flagged (now : Int) :
    ∀ (ps : List Payment) (st : AdminState) (uid : Nat) (u : User),
      findUser st.users uid = some u → u.isSuspicious = true →
      u.installmentSettings.enabled = false →
      ∃ u', findUser (sweepLoop now ps st).1.users uid = some u' ∧
        u'.isSuspicious = true ∧ u'.installmentSettings.enabled = false := by
  intro ps
  induction ps with
  | nil =>
    intro st uid u hf hs he
    exact ⟨u, by rw [sweepLoop_nil]; exact hf, hs, he⟩
  | cons p rest ih =>
    intro st uid u hf hs he
    cases hfu : findUser st.users p.userId with
    | none =>
      rw [sweepLoop_cons_none now p rest st hfu]
      exact ih st uid u hf hs he
    | some v =>
      cases hvs : v.isSuspicious with
      | true =>
        rw [sweepLoop_cons_skip now p rest st v hfu hvs]
        exact ih st uid u hf hs he
      | false =>
        rw [sweepLoop_cons_proc now p rest st v hfu hvs]
        have hf1 : findUser (sweepStepState st p).users uid
            = some (if u.id = p.userId then flagUser u else u) := by
          show findUser (storeFlagUser st.users p.userId) uid = _
          rw [findUser_storeFlagUser, hf]
          rfl
        by_cases hcase : u.id = p.userId
        · exact ih _ uid (flagUser u) (by rw [hf1, if_pos hcase]) rfl rfl
        · exact ih _ uid u (by rw [hf1, if_neg hcase]) hs he

/-- Through the whole sweep loop, a missing account stays missing. -/
theorem sweepLoop_preserves_no_user (now : Int) :
    ∀ (ps : List Payment) (st : AdminState) (uid : Nat),
      findUser st.users uid = none →
      findUser (sweepLoop now ps st).1.users uid = none := by
  intro ps
  induction ps with
  | nil =>
    intro st uid hf
    rw [sweepLoop_nil]
    exact hf
  | cons p rest ih =>
    intro st uid hf
    cases hfu : findUser st.users p.userId with
    | none =>
      rw [sweepLoop_cons_none now p rest st hfu]
      exact ih st uid hf
    | some v =>
      cases hvs : v.isSuspicious with
      | true =>
        rw [sweepLoop_cons_skip now p rest st v hfu hvs]
        exact ih st uid hf
      | false =>
        rw [sweepLoop_cons_proc now p rest st v hfu hvs]
        apply ih
        show findUser (storeFlagUser st.users p.userId) uid = none
        rw [findUser_storeFlagUser, hf]
        rfl

/-- Through the whole sweep loop, a blocked payment stays blocked. -/
theorem sweepLoop_preserves_blocked (now : Int) (ps : List Payment)
    (st : AdminState) (p0 : Payment) (hb : blockedB st p0 = true) :
    blockedB (sweepLoop now ps st).1 p0 = true := by
  unfold blockedB at hb ⊢
  cases hf : findUser st.users p0.userId with
  | none =>
    rw [sweepLoop_preserves_no_user now ps st p0.userId hf]
  | some u =>
    rw [hf] at hb
    obtain ⟨u', hf', hs'⟩ := sweepLoop_preserves_susp now ps st p0.userId u hf hb
    rw [hf']
    exact hs'

/-- Through the whole sweep loop, an unflagged stored payment is an
untouched original. -/
theorem sweepLoop_unmarked_mem (now : Int) :
    ∀ (ps : List Payment) (st : AdminState) (q : Payment),
      q ∈ (sweepLoop now ps st).1.payments → q.markedSuspicious = false →
      q ∈ st.payments := by
  intro ps
  induction ps with
  | nil =>
    intro st q hq hm
    rw [sweepLoop_nil] at hq
    exact hq
  | cons p rest ih =>
    intro st q hq hm
    cases hfu : findUser st.users p.userId with
    | none =>
      rw [sweepLoop_cons_none now p rest st hfu] at hq
      exact ih st q hq hm
    | some v =>
      cases hvs : v.isSuspicious with
      | true =>
        rw [sweepLoop_cons_skip now p rest st v hfu hvs] at hq
        exact ih st q hq hm
      | false =>
        rw [sweepLoop_cons_proc now p rest st v hfu hvs] at hq
        have hq1 : q ∈ (sweepStepState st p).payments := ih _ q hq hm
        rcases storePayment_mem _ _ _ hq1 with rfl | hmem
        · rw [preSave_markedSuspicious] at hm
          cases hm
        · exact hmem

/-- The all-flagged-for-an-id payment invariant survives the sweep
loop. -/
theorem sweepLoop_preserves_marked_id (now : Int) :
    ∀ (ps : List Payment) (st : AdminState) (pid : Nat),
      (∀ q ∈ st.payments, q.id = pid → q.markedSuspicious = true) →
      ∀ q ∈ (sweepLoop now ps st).1.payments, q.id = pid →
        q.markedSuspicious = true := by
  intro ps
  induction ps with
  | nil =>
    intro st pid hinv q hq hid
    rw [sweepLoop_nil] at hq
    exact hinv q hq hid
  | cons p rest ih =>
    intro st pid hinv q hq hid
    cases hfu : findUser st.users p.userId with
    | none =>
      rw [sweepLoop_cons_none now p rest st hfu] at hq
      exact ih st pid hinv q hq hid
    | some v =>
      cases hvs : v.isSuspicious with
      | true =>
        rw [sweepLoop_cons_skip now p rest st v hfu hvs] at hq
        exact ih st pid hinv q hq hid
      | false =>
        rw [sweepLoop_cons_proc now p rest st v hfu hvs] at hq
        refine ih _ pid ?_ q hq hid
        intro r hr hrid
        rcases storePayment_mem _ _ _ hr with rfl | hmem
        · rw [preSave_markedSuspicious]
        · exact hinv r hmem hrid

/-- Every payment handed to the sweep loop ends up blocked or with all
its stored copies flagged. -/
theorem sweepLoop_blocked_or_marked (now : Int) :
    ∀ (ps : List Payment) (st : AdminState) (p0 : Payment), p0 ∈ ps →
      blockedB (sweepLoop now ps st).1 p0 = true ∨
      (∀ q ∈ (sweepLoop now ps st).1.payments, q.id = p0.id →
        q.markedSuspicious = true) := by
  intro ps
  induction ps with
  | nil =>
    intro st p0 hp0
    cases hp0
  | cons p rest ih =>
    intro st p0 hp0
    cases hfu : findUser st.users p.userId with
    | none =>
      rw [sweepLoop_cons_none now p rest st hfu]
      rcases List.mem_cons.mp hp0 with rfl | hmem
      · left
        apply sweepLoop_preserves_blocked
        unfold blockedB
        rw [hfu]
      · exact ih st p0 hmem
    | some v =>
      cases hvs : v.isSuspicious with
      | true =>
        rw [sweepLoop_cons_skip now p rest st v hfu hvs]
        rcases List.mem_cons.mp hp0 with rfl | hmem
        · left
          apply sweepLoop_preserves_blocked
          unfold blockedB
          rw [hfu]
          exact hvs
        · exact ih st p0 hmem
      | false =>
        rw [sweepLoop_cons_proc now p rest st v hfu hvs]
        rcases List.mem_cons.mp hp0 with rfl | hmem
        · right
          apply sweepLoop_preserves_marked_id
          intro r hr hrid
          have hsaved : r = preSave { p0 with markedSuspicious := true } := by
            apply storePayment_id_eq _ _ _ hr
            rw [preSave_id]
            exact hrid
          rw [hsaved, preSave_markedSuspicious]
        · exact ih _ p0 hmem

/-- A sweep loop whose every payment is blocked changes nothing and
emits nothing. -/
theorem sweepLoop_all_blocked (now : Int) :
    ∀ (ps : List Payment) (st : AdminState),
      (∀ p ∈ ps, blockedB st p = true) → sweepLoop now ps st = (st, []) := by
  intro ps
  induction ps with
  | nil => intro st _; rfl
  | cons p rest ih =>
    intro st hall
    have hb := hall p (List.mem_cons_self p rest)
    unfold blockedB at hb
    cases hfu : findUser st.users p.userId with
    | none =>
      rw [sweepLoop_cons_none now p rest st hfu]
      exact ih st (fun q hq => hall q (List.mem_cons_of_mem p hq))
    | some v =>
      rw [hfu] at hb
      rw [sweepLoop_cons_skip now p rest st v hfu hb]
      exact ih st (fun q hq => hall q (List.mem_cons_of_mem p hq))

/-- Soundness of the emitted entries: each one names a handed-in
payment whose owner existed and was not suspicious at loop start. -/
theorem sweepLoop_entries_sound (now : Int) :
    ∀ (ps : List Payment) (st : AdminState) (e : SuspEntry),
      e ∈ (sweepLoop now ps st).2 →
      (∃ p ∈ ps, p.userId = e.userId ∧ p.id = e.paymentId) ∧
      (∃ u, findUser st.users e.userId = some u ∧ u.isSuspicious = false) := by
  intro ps
  induction ps with
  | nil =>
    intro st e he
    rw [sweepLoop_nil] at he
    cases he
  | cons p rest ih =>
    intro st e he
    cases hfu : findUser st.users p.userId with
    | none =>
      rw [sweepLoop_cons_none now p rest st hfu] at he
      obtain ⟨⟨q, hq, hqe⟩, hu⟩ := ih st e he
      exact ⟨⟨q, List.mem_cons_of_mem p hq, hqe⟩, hu⟩
    | some v =>
      cases hvs : v.isSuspicious with
      | true =>
        rw [sweepLoop_cons_skip now p rest st v hfu hvs] at he
        obtain ⟨⟨q, hq, hqe⟩, hu⟩ := ih st e he
        exact ⟨⟨q, List.mem_cons_of_mem p hq, hqe⟩, hu⟩
      | false =>
        rw [sweepLoop_cons_proc now p rest st v hfu hvs] at he
        rcases List.mem_cons.mp he with rfl | he2
        · exact ⟨⟨p, List.mem_cons_self p rest, rfl, rfl⟩, v, hfu, hvs⟩
        · obtain ⟨⟨q, hq, hqe⟩, u', hfu', hus'⟩ := ih _ e he2
          refine ⟨⟨q, List.mem_cons_of_mem p hq, hqe⟩, u', ?_, hus'⟩
          exact storeFlagUser_unsusp_back st.users p.userId e.userId u' hfu' hus'

/-- Completeness of the emitted entries: a handed-in payment whose
owner exists and is not suspicious at loop start contributes its owner
to the result. -/
theorem sweepLoop_entries_complete (now : Int) :
    ∀ (ps : List Payment) (st : AdminState) (p0 : Payment), p0 ∈ ps →
      ∀ u, findUser st.users p0.userId = some u → u.isSuspicious = false →
      ∃ e ∈ (sweepLoop now ps st).2, e.userId = p0.userId := by
  intro ps
  induction ps with
  | nil =>
    intro st p0 hp0
    cases hp0
  | cons p rest ih =>
    intro st p0 hp0 u hfu0 hus0
    cases hfu : findUser st.users p.userId with
    | none =>
      rw [sweepLoop_cons_none now p rest st hfu]
      rcases List.mem_cons.mp hp0 with rfl | hmem
      · rw [hfu0] at hfu
        cases hfu
      · exact ih st p0 hmem u hfu0 hus0
    | some v =>
      cases hvs : v.isSuspicious with
      | true =>
        rw [sweepLoop_cons_skip now p rest st v hfu hvs]
        rcases List.mem_cons.mp hp0 with rfl | hmem
        · rw [hfu0] at hfu
          cases hfu
          rw [hvs] at hus0
          cases hus0
        · exact ih st p0 hmem u hfu0 hus0
      | false =>
        rw [sweepLoop_cons_proc now p rest st v hfu hvs]
        by_cases hid : p0.userId = p.userId
        · exact ⟨{ userId := p.userId, paymentId := p.id },
            List.mem_cons_self _ _, hid.symm⟩
        · have hmem : p0 ∈ rest := by
            rcases List.mem_cons.mp hp0 with rfl | hmem
            · exact absurd rfl hid
            · exact hmem
          have hfu1 : findUser (sweepStepState st p).users p0.userId = some u := by
            show findUser (storeFlagUser st.users p.userId) p0.userId = some u
            rw [findUser_storeFlagUser, hfu0, Option.map_some',
              if_neg (by rw [findUser_id st.users p0.userId u hfu0]; exact hid)]
          obtain ⟨e, he, heq⟩ := ih (sweepStepState st p) p0 hmem u hfu1 hus0
          exact ⟨e, List.mem_cons_of_mem _ he, heq⟩

/-- Every emitted account is suspicious with installments disabled in
the final state. -/
theorem sweepLoop_entries_flagged (now : Int) :
    ∀ (ps : List Payment) (st : AdminState) (e : SuspEntry),
      e ∈ (sweepLoop now ps st).2 →
      ∃ u', findUser (sweepLoop now ps st).1.users e.userId = some u' ∧
        u'.isSuspicious = true ∧ u'.installmentSettings.enabled = false := by
  intro ps
  induction ps with
  | nil =>
    intro st e he
    rw [sweepLoop_nil] at he
    cases he
  | cons p rest ih =>
    intro st e he
    cases hfu : findUser st.users p.userId with
    | none =>
      rw [sweepLoop_cons_none now p rest st hfu] at he ⊢
      exact ih st e he
    | some v =>
      cases hvs : v.isSuspicious with
      | true =>
        rw [sweepLoop_cons_skip now p rest st v hfu hvs] at he ⊢
        exact ih st e he
      | false =>
        rw [sweepLoop_cons_proc now p rest st v hfu hvs] at he ⊢
        rcases List.mem_cons.mp he with rfl | he2
        · have hf1 : findUser (sweepStepState st p).users p.userId
              = some (flagUser v) := by
            show findUser (storeFlagUser st.users p.userId) p.userId = _
            rw [findUser_storeFlagUser, hfu, Option.map_some',
              if_pos (findUser_id st.users p.userId v hfu)]
          exact sweepLoop_preserves_flagged now rest (sweepStepState st p)
            p.userId (flagUser v) hf1 rfl rfl
        · exact ih _ e he2

/-- Every emitted ledger is flagged `markedSuspicious` in the final
state. -/
theorem sweepLoop_entries_marked (now : Int) :
    ∀ (ps : List Payment) (st : AdminState) (e : SuspEntry),
      e ∈ (sweepLoop now ps st).2 →
      ∀ q ∈ (sweepLoop now ps st).1.payments, q.id = e.paymentId →
        q.markedSuspicious = true := by
  intro ps
  induction ps with
  | nil =>
    intro st e he
    rw [sweepLoop_nil] at he
    cases he
  | cons p rest ih =>
    intro st e he
    cases hfu : findUser st.users p.userId with
    | none =>
      rw [sweepLoop_cons_none now p rest st hfu] at he ⊢
      exact ih st e he
    | some v =>
      cases hvs : v.isSuspicious with
      | true =>
        rw [sweepLoop_cons_skip now p rest st v hfu hvs] at he ⊢
        exact ih st e he
      | false =>
        rw [sweepLoop_cons_proc now p rest st v hfu hvs] at he ⊢
        rcases List.mem_cons.mp he with rfl | he2
        · apply sweepLoop_preserves_marked_id
          intro r hr hrid
          have hsaved : r = preSave { p with markedSuspicious := true } := by
            apply storePayment_id_eq _ _ _ hr
            rw [preSave_id]
            exact hrid
          rw [hsaved, preSave_markedSuspicious]
        · exact ih _ e he2

/-- C3 (amended): the sweep emits exactly the accounts that own a
ledger matching its query — installment mode, not yet flagged, some
`pending` obligation and some (possibly different) obligation past due
— and that exist and are not already suspicious; each emitted account
ends suspicious with installments force-disabled, each emitted ledger
ends flagged `markedSuspicious`; and re-running the sweep with no
intervening change returns an empty result set and changes nothing. -/
theorem C3_sweep_amended (now : Int) (st : AdminState) :
    (∀ uid : Nat, (∃ e ∈ (checkOverduePayments now st).2, e.userId = uid) ↔
      ((∃ p ∈ st.payments, sweepMatch now p = true ∧ p.userId = uid) ∧
       (∃ u, findUser st.users uid = some u ∧ u.isSuspicious = false))) ∧
    (∀ e ∈ (checkOverduePayments now st).2,
      ∃ u, findUser (checkOverduePayments now st).1.users e.userId = some u ∧
        u.isSuspicious = true ∧ u.installmentSettings.enabled = false) ∧
    (∀ e ∈ (checkOverduePayments now st).2,
      ∀ q ∈ (checkOverduePayments now st).1.payments,
        q.id = e.paymentId → q.markedSuspicious = true) ∧
    checkOverduePayments now (checkOverduePayments now st).1
      = ((checkOverduePayments now st).1, []) := by
  refine ⟨?_, ?_, ?_, ?_⟩
  · intro uid
    constructor
    · rintro ⟨e, he, rfl⟩
      obtain ⟨⟨p, hp, hpu, _⟩, hu⟩ := sweepLoop_entries_sound now _ st e he
      obtain ⟨hpmem, hpm⟩ := List.mem_filter.mp hp
      exact ⟨⟨p, hpmem, hpm, hpu⟩, hu⟩
    · rintro ⟨⟨p, hp, hpm, hpu⟩, u, hfu, hus⟩
      have hpf : p ∈ st.payments.filter (sweepMatch now) :=
        List.mem_filter.mpr ⟨hp, hpm⟩
      obtain ⟨e, he, heq⟩ := sweepLoop_entries_complete now _ st p hpf u
        (by rw [hpu]; exact hfu) hus
      exact ⟨e, he, by rw [heq, hpu]⟩
  · intro e he
    exact sweepLoop_entries_flagged now _ st e he
  · intro e he
    exact sweepLoop_entries_marked now _ st e he
  · unfold checkOverduePayments
    apply sweepLoop_all_blocked
    intro p hp
    obtain ⟨hpmem, hpm⟩ := List.mem_filter.mp hp
    have hunm : p.markedSuspicious = false := sweepMatch_not_marked now p hpm
    have hporig : p ∈ st.payments := sweepLoop_unmarked_mem now _ st p hpmem hunm
    have hpf : p ∈ st.payments.filter (sweepMatch now) :=
      List.mem_filter.mpr ⟨hporig, hpm⟩
    rcases sweepLoop_blocked_or_marked now _ st p hpf with hb | hmk
    · exact hb
    · exact absurd (hmk p hpmem rfl) (by rw [hunm]; decide)

/-- Witness for C3's amended theorem: on the spec's Scenario B state
`stB` the sweep emits account 1, and a second run returns nothing and
changes nothing. -/
theorem C3_witness :
    (∃ e ∈ (checkOverduePayments 0 stB).2, e.userId = 1) ∧
    checkOverduePayments 0 (checkOverduePayments 0 stB).1
      = ((checkOverduePayments 0 stB).1, []) := by
  have h := C3_sweep_amended 0 stB
  refine ⟨(h.1 1).mpr ⟨?_, ?_⟩, h.2.2.2⟩
  · with_unfolding_all decide
  · exact ⟨{ id := 1, installmentSettings := { enabled := true } },
      by with_unfolding_all rfl, rfl⟩

/-- Counterexample to C3 as stated: in `stC3` no single obligation is
overdue (the lapsed one is `paid`, the `pending` one is not yet due),
yet the sweep's result set is non-empty — it emits the owner of
`pC8b`. -/
theorem C3_counterexample :
    (∀ p ∈ stC3.payments, ∀ i ∈ p.installments, ¬ OverdueOb 0 i) ∧
    (checkOverduePayments 0 stC3).2 ≠ [] := by
  constructor
  · with_unfolding_all decide
  · with_unfolding_all decide
